import Mathlib

/-!
# Dolphin debugger: the stepping controller of `CCodeWindow`

A shallow embedding of the stepping operations of
`Source/Core/DolphinWX/Debugger/CodeWindow.cpp` (`SingleStep`, `StepOver`,
`StepOut`, `ToggleBreakpoint`, `JumpToAddress`), of its event handlers
`OnCodeStep` and `OnAddrBoxChange`, and of the identifier `enum` of
`Source/Core/DolphinWX/Globals.h`.

The emulator core is a collaborator of the panel.  Its state is the record
`Machine`; the primitives whose code lives elsewhere in the emulator
(`PowerPC::SingleStep`, `PowerPC::HostRead_Instruction`, the `LK` bit-field of
`UGeckoInstruction`, `SystemTimers::GetTicksPerSecond`) are the fields of the
parameter `Core`, so every theorem holds for every choice of them.

Every call the panel makes to a collaborator is appended to `Debugger.trace`,
in program order, so that "how many single steps" and "in which order" are
statements about that list.

Machine integers: `PC` and `next_pc` are `u32` and `PC + 4` is taken modulo
`2 ^ 32`.  `steps` and `timeout` are `u64`; `++steps` only runs under the guard
`steps < timeout`, so it never wraps and is a plain successor.
-/

namespace Dolphin

/-- Modelled from the spec: `PowerPC::CoreMode` is declared in `PowerPC.h`, which
is not among the sources.  The spec gives Execution Mode as the enumeration
{Interpreted, Compiled}; the two enumerators the panel names are
`MODE_INTERPRETER` and `MODE_JIT`. -/
inductive CoreMode where
  | MODE_INTERPRETER
  | MODE_JIT
  deriving DecidableEq, Repr

/-- Modelled from the spec: `TBreakPoint` is declared in `Common/BreakPoints.h`,
which is not among the sources.  A breakpoint is an address together with the
flag that makes it temporary. -/
structure TBreakPoint where
  iAddress : Nat
  bTemporary : Bool
  deriving DecidableEq, Repr

/-- The state of the emulator core the panel reads and writes: the program
counter `PC`, the execution mode (`PowerPC::GetMode`), the stepping flag
(`CCPU::IsStepping`), the breakpoint store `PowerPC::breakpoints`, and the rest
of the core (registers, memory) as `regs`. -/
structure Machine (σ : Type) where
  pc : Nat
  mode : CoreMode
  stepping : Bool
  breakpoints : List TBreakPoint
  regs : σ

/-- The primitives of the emulator core that `CodeWindow.cpp` calls and whose
code is not among the sources. -/
structure Core (σ : Type) where
  /-- The primitive `PowerPC::SingleStep()`: executes one instruction. -/
  SingleStep : Machine σ → Machine σ
  /-- The primitive `PowerPC::HostRead_Instruction(address).hex`. -/
  HostRead_Instruction : Machine σ → Nat → Nat
  /-- The bit-field `UGeckoInstruction::LK` of an instruction word. -/
  LK : Nat → Bool
  /-- The value of `SystemTimers::GetTicksPerSecond()`. -/
  GetTicksPerSecond : Nat

/-- One call made by the panel to a collaborator.  `HostRead_Instruction`
carries the address read and the word returned; `SingleStep` carries the `PC`
at which the step was issued and the instruction word found there. -/
inductive Call where
  | ClearAllTemporary
  | Add (em_address : Nat) (temp : Bool)
  | InvalidateICache (address length : Nat) (force : Bool)
  | StepOpcode
  | Sleep (ms : Nat)
  | EnableStepping (stepping : Bool)
  | GetMode
  | SetMode (mode : CoreMode)
  | HostRead_Instruction (address hex : Nat)
  | SingleStep (pc hex : Nat)
  | ToggleBreakpoint (address : Nat)
  | Center (address : Nat)
  | UpdateLists
  | Refresh
  | UpdateCallstack
  | UpdateButtonStates
  | UpdateGUI
  deriving DecidableEq, Repr

/-- What the methods of `CCodeWindow` act on: the emulator core, the member
`codeview` (`none` for a null pointer, otherwise the address selected in the
view) and the calls made so far. -/
structure Debugger (σ : Type) where
  cpu : Machine σ
  codeview : Option Nat
  trace : List Call

variable {σ : Type}

/-- Append a call to the trace. -/
def record (e : Call) (s : Debugger σ) : Debugger σ :=
  { s with trace := s.trace ++ [e] }

/-- Is the call a `PowerPC::SingleStep()`? -/
def Call.isSingleStep : Call → Bool
  | .SingleStep _ _ => true
  | _ => false

/-- Is the call a `PowerPC::HostRead_Instruction`? -/
def Call.isHostRead : Call → Bool
  | .HostRead_Instruction _ _ => true
  | _ => false

/-- Does the call act on the emulator core (breakpoints, instruction cache,
execution, stepping flag, mode), as opposed to reading it or refreshing the
user interface? -/
def Call.isCoreEffect : Call → Bool
  | .ClearAllTemporary => true
  | .Add _ _ => true
  | .InvalidateICache _ _ _ => true
  | .StepOpcode => true
  | .EnableStepping _ => true
  | .SetMode _ => true
  | .SingleStep _ _ => true
  | .ToggleBreakpoint _ => true
  | _ => false

/-- The calls made between the state `s` and the later state `s'`. -/
def newCalls (s s' : Debugger σ) : List Call :=
  s'.trace.drop s.trace.length

/-- Number of `PowerPC::SingleStep()` calls in a list of calls. -/
def singleSteps (t : List Call) : Nat :=
  t.countP Call.isSingleStep

/-- The addresses of the temporary breakpoints of a store. -/
def temporaryAddresses (bps : List TBreakPoint) : List Nat :=
  (bps.filter (fun b => b.bTemporary)).map (fun b => b.iAddress)

/-! ## Collaborators -/

/-- The query `CCPU::IsStepping()`. -/
def CCPU.IsStepping (s : Debugger σ) : Bool :=
  s.cpu.stepping

/-- Modelled from the spec: `CCPU::EnableStepping` (Core/HW/CPU.cpp) is not
among the sources; the spec lists `EnableStepping(bool)` as the capability
that disables or enables stepping mode. -/
def CCPU.EnableStepping (stepping : Bool) (s : Debugger σ) : Debugger σ :=
  record (.EnableStepping stepping) { s with cpu := { s.cpu with stepping := stepping } }

/-- Modelled from the spec: `CCPU::StepOpcode` (Core/HW/CPU.cpp) is not among
the sources; the spec has StepInto execute exactly one instruction and signal
completion, so the request runs the single-step primitive once. -/
def CCPU.StepOpcode (c : Core σ) (s : Debugger σ) : Debugger σ :=
  record .StepOpcode { s with cpu := c.SingleStep s.cpu }

/-- The call `PowerPC::SingleStep()`, recorded with the `PC` it was issued at
and the instruction word found there. -/
def PowerPC.SingleStep (c : Core σ) (s : Debugger σ) : Debugger σ :=
  record (.SingleStep s.cpu.pc (c.HostRead_Instruction s.cpu s.cpu.pc))
    { s with cpu := c.SingleStep s.cpu }

/-- The call `PowerPC::HostRead_Instruction(PC)`: the word read, and the state
with the read recorded. -/
def PowerPC.HostRead_Instruction (c : Core σ) (s : Debugger σ) : Nat × Debugger σ :=
  (c.HostRead_Instruction s.cpu s.cpu.pc,
   record (.HostRead_Instruction s.cpu.pc (c.HostRead_Instruction s.cpu s.cpu.pc)) s)

/-- The call `PowerPC::GetMode()`. -/
def PowerPC.GetMode (s : Debugger σ) : CoreMode × Debugger σ :=
  (s.cpu.mode, record .GetMode s)

/-- Modelled from the spec: `PowerPC::SetMode` (PowerPC.cpp) is not among the
sources; the spec lists `SetMode(ExecutionMode)` as the capability that sets
the Execution Mode read back by `GetMode()`. -/
def PowerPC.SetMode (mode : CoreMode) (s : Debugger σ) : Debugger σ :=
  record (.SetMode mode) { s with cpu := { s.cpu with mode := mode } }

/-- Modelled from the spec: `BreakPoints::ClearAllTemporary`
(Common/BreakPoints.cpp) is not among the sources; the spec lists
`ClearAllTemporaryBreakpoints()`, which removes every temporary breakpoint. -/
def PowerPC.breakpoints.ClearAllTemporary (s : Debugger σ) : Debugger σ :=
  record .ClearAllTemporary
    { s with cpu := { s.cpu with
        breakpoints := s.cpu.breakpoints.filter (fun b => !b.bTemporary) } }

/-- Modelled from the spec: `BreakPoints::Add` (Common/BreakPoints.cpp) is not
among the sources; the spec lists `AddTemporaryBreakpoint(address, temporary)`,
which installs a breakpoint at the address with the given flag. -/
def PowerPC.breakpoints.Add (em_address : Nat) (temp : Bool) (s : Debugger σ) : Debugger σ :=
  record (.Add em_address temp)
    { s with cpu := { s.cpu with
        breakpoints := s.cpu.breakpoints ++ [{ iAddress := em_address, bTemporary := temp }] } }

/-- The call `JitInterface::InvalidateICache(address, length, force)`. -/
def JitInterface.InvalidateICache (address length : Nat) (force : Bool)
    (s : Debugger σ) : Debugger σ :=
  record (.InvalidateICache address length force) s

/-- The call `wxThread::Sleep(ms)`. -/
def wxThread.Sleep (ms : Nat) (s : Debugger σ) : Debugger σ :=
  record (.Sleep ms) s

/-- Modelled from the spec: `CCodeView::Center` (CodeView.h) is not among the
sources; the spec has the caller re-center the view on the address, which moves
the selection of the view there. -/
def CCodeView.Center (address : Nat) (s : Debugger σ) : Debugger σ :=
  record (.Center address) { s with codeview := s.codeview.map (fun _ => address) }

/-- Modelled from the spec: `CCodeView::ToggleBreakpoint` (CodeView.cpp) is not
among the sources; the spec has it flip the breakpoint state at the address and
delegate storage to the breakpoint collaborator. -/
def CCodeView.ToggleBreakpoint (address : Nat) (s : Debugger σ) : Debugger σ :=
  record (.ToggleBreakpoint address)
    { s with cpu := { s.cpu with
        breakpoints :=
          if s.cpu.breakpoints.any (fun b => b.iAddress == address) then
            s.cpu.breakpoints.filter (fun b => !(b.iAddress == address))
          else
            s.cpu.breakpoints ++ [{ iAddress := address, bTemporary := false }] } }

/-! ## The methods of `CCodeWindow` -/

namespace CCodeWindow

/-- The method `CCodeWindow::UpdateLists()`, as a call on the list boxes. -/
def UpdateLists (s : Debugger σ) : Debugger σ :=
  record .UpdateLists s

/-- The method `CCodeWindow::UpdateCallstack()`, as a call on the list box. -/
def UpdateCallstack (s : Debugger σ) : Debugger σ :=
  record .UpdateCallstack s

/-- The method `CCodeWindow::UpdateButtonStates()`: enables and disables tools
and menu items; it reads `CCPU::IsStepping()` and writes widgets only. -/
def UpdateButtonStates (s : Debugger σ) : Debugger σ :=
  record .UpdateButtonStates s

/-- The call `Parent->UpdateGUI()`. -/
def UpdateGUI (s : Debugger σ) : Debugger σ :=
  record .UpdateGUI s

/-- The method `CCodeWindow::Update()`. -/
def Update (s : Debugger σ) : Debugger σ :=
  match s.codeview with
  | none => s
  | some _ =>
    let s := record .Refresh s
    let s := UpdateCallstack s
    UpdateButtonStates s

/-- The method `CCodeWindow::JumpToAddress(u32 address)`: the returned flag and the
state. -/
def JumpToAddress (address : Nat) (s : Debugger σ) : Bool × Debugger σ :=
  if address ≤ 0xFFFFFFFF then
    let s := CCodeView.Center address s
    let s := UpdateLists s
    (true, s)
  else
    (false, s)

/-- The method `CCodeWindow::SingleStep()` (StepInto). -/
def SingleStep (c : Core σ) (s : Debugger σ) : Debugger σ :=
  if CCPU.IsStepping s then
    let s := PowerPC.breakpoints.ClearAllTemporary s
    let s := JitInterface.InvalidateICache s.cpu.pc 4 true s
    let s := CCPU.StepOpcode c s
    let s := wxThread.Sleep 20 s
    let s := (JumpToAddress s.cpu.pc s).2
    Update s
  else
    s

/-- The method `CCodeWindow::StepOver()`. -/
def StepOver (c : Core σ) (s : Debugger σ) : Debugger σ :=
  if CCPU.IsStepping s then
    let (inst, s) := PowerPC.HostRead_Instruction c s
    let s :=
      if c.LK inst then
        let s := PowerPC.breakpoints.ClearAllTemporary s
        let s := PowerPC.breakpoints.Add ((s.cpu.pc + 4) % 2 ^ 32) true s
        let s := CCPU.EnableStepping false s
        let s := (JumpToAddress s.cpu.pc s).2
        Update s
      else
        SingleStep c s
    let s := UpdateButtonStates s
    UpdateGUI s
  else
    s

/-- The inner loop of `StepOut`:
`while (PC != next_pc && steps < timeout) { PowerPC::SingleStep(); ++steps; }`.
Returns the state and the value of `steps` at loop exit. -/
def stepOutInner (c : Core σ) (timeout next_pc : Nat) (s : Debugger σ) (steps : Nat) :
    Debugger σ × Nat :=
  if s.cpu.pc ≠ next_pc ∧ steps < timeout then
    stepOutInner c timeout next_pc (PowerPC.SingleStep c s) (steps + 1)
  else
    (s, steps)
termination_by timeout - steps

/-- The body of the outer loop of `StepOut` up to the re-read of `inst`: the
`if (inst.LK) ... else ...` statement. -/
def stepOutBody (c : Core σ) (timeout inst : Nat) (s : Debugger σ) (steps : Nat) :
    Debugger σ × Nat :=
  if c.LK inst then
    let next_pc := (s.cpu.pc + 4) % 2 ^ 32
    stepOutInner c timeout next_pc s steps
  else
    (PowerPC.SingleStep c s, steps + 1)

/-! The outer loop terminates because each iteration raises `steps`; the three
lemmas below are what its definition needs for that. -/

/-- The inner loop never lowers `steps` and never takes it past `timeout`. -/
theorem stepOutInner_steps_bounds (c : Core σ) (timeout next_pc : Nat) (s : Debugger σ)
    (steps : Nat) :
    steps ≤ (stepOutInner c timeout next_pc s steps).2 ∧
      ((stepOutInner c timeout next_pc s steps).2 ≤ timeout ∨
        (stepOutInner c timeout next_pc s steps).2 = steps) := by
  induction s, steps using stepOutInner.induct c timeout next_pc with
  | case1 s steps h ih =>
    rw [stepOutInner, if_pos h]
    omega
  | case2 s steps h =>
    rw [stepOutInner, if_neg h]
    simp

/-- When the inner loop is entered with budget left and `PC ≠ next_pc`, it
performs at least one step. -/
theorem stepOutInner_steps_lt (c : Core σ) (timeout next_pc : Nat) (s : Debugger σ)
    (steps : Nat) (hpc : s.cpu.pc ≠ next_pc) (hlt : steps < timeout) :
    steps < (stepOutInner c timeout next_pc s steps).2 := by
  rw [stepOutInner, if_pos ⟨hpc, hlt⟩]
  have := (stepOutInner_steps_bounds c timeout next_pc (PowerPC.SingleStep c s) (steps + 1)).1
  omega

/-- One iteration of the outer loop, entered with budget left, raises `steps`
and keeps it within `timeout`. -/
theorem stepOutBody_steps (c : Core σ) (timeout inst : Nat) (s : Debugger σ) (steps : Nat)
    (hlt : steps < timeout) :
    steps < (stepOutBody c timeout inst s steps).2 ∧
      (stepOutBody c timeout inst s steps).2 ≤ timeout := by
  unfold stepOutBody
  split
  · have hpc : s.cpu.pc ≠ (s.cpu.pc + 4) % 2 ^ 32 := by omega
    have h1 := stepOutInner_steps_lt c timeout _ s steps hpc hlt
    have h2 := stepOutInner_steps_bounds c timeout ((s.cpu.pc + 4) % 2 ^ 32) s steps
    refine ⟨h1, ?_⟩
    simp only at h1 h2 ⊢
    omega
  · simp only
    omega

/-- The outer loop of `StepOut`:
`while (inst.hex != 0x4e800020 && steps < timeout) { ...; inst = HostRead_Instruction(PC); }`.
Returns the state and the value of `steps` at loop exit. -/
def stepOutLoop (c : Core σ) (timeout inst : Nat) (s : Debugger σ) (steps : Nat) :
    Debugger σ × Nat :=
  if inst ≠ 0x4e800020 ∧ steps < timeout then
    let r := stepOutBody c timeout inst s steps
    let f := PowerPC.HostRead_Instruction c r.1
    stepOutLoop c timeout f.1 f.2 r.2
  else
    (s, steps)
termination_by timeout - steps
decreasing_by
  rename_i h
  have := stepOutBody_steps c timeout inst s steps h.2
  omega

/-- The method `CCodeWindow::StepOut()`. -/
def StepOut (c : Core σ) (s : Debugger σ) : Debugger σ :=
  if CCPU.IsStepping s then
    let s := PowerPC.breakpoints.ClearAllTemporary s
    let timeout := c.GetTicksPerSecond
    let steps := 0
    let (oldMode, s) := PowerPC.GetMode s
    let s := PowerPC.SetMode CoreMode.MODE_INTERPRETER s
    let (inst, s) := PowerPC.HostRead_Instruction c s
    let (s, _) := stepOutLoop c timeout inst s steps
    let s := PowerPC.SingleStep c s
    let s := PowerPC.SetMode oldMode s
    let s := (JumpToAddress s.cpu.pc s).2
    let s := Update s
    let s := UpdateButtonStates s
    UpdateGUI s
  else
    s

/-- The instruction word and the state with which `StepOut` enters its loop:
after `ClearAllTemporary`, `GetMode`, `SetMode(MODE_INTERPRETER)` and the first
`HostRead_Instruction(PC)`. -/
def stepOutEntry (c : Core σ) (s : Debugger σ) : Nat × Debugger σ :=
  PowerPC.HostRead_Instruction c
    (PowerPC.SetMode CoreMode.MODE_INTERPRETER
      (PowerPC.GetMode (PowerPC.breakpoints.ClearAllTemporary s)).2)

/-- The state and the value of `steps` with which `StepOut` leaves its loop. -/
def stepOutExit (c : Core σ) (s : Debugger σ) : Debugger σ × Nat :=
  stepOutLoop c c.GetTicksPerSecond (stepOutEntry c s).1 (stepOutEntry c s).2 0

/-- The shape of the calls made by the outer loop of `StepOut` when it is
entered after `steps` single steps with the word `w` read at `PC = a`.  Either
the loop condition fails and no call is made; or `w` is not the return word and
budget is left, and the loop makes a non-empty block `k` of single steps, then
reads the word `w'` at `PC = a'`, and goes on in the same way.  When `w` has
the link bit set, every step of the block is issued at a `PC` different from
`a + 4`, and the block ends with `PC = a + 4` or with the budget used up; when
`w` has the link bit clear, the block is one single step. -/
inductive LoopCalls (c : Core σ) (timeout : Nat) : Nat → Nat → Nat → List Call → Prop where
  | exit (steps a w : Nat) (hexit : ¬ (w ≠ 0x4e800020 ∧ steps < timeout)) :
      LoopCalls c timeout steps a w []
  | iter (steps a w : Nat) (k : List Call) (a' w' : Nat) (rest : List Call)
      (hw : w ≠ 0x4e800020) (hlt : steps < timeout) (hk : k ≠ [])
      (hsteps : ∀ e ∈ k, ∃ p x, e = Call.SingleStep p x ∧
        (c.LK w = true → p ≠ (a + 4) % 2 ^ 32))
      (hend : c.LK w = true → a' = (a + 4) % 2 ^ 32 ∨ steps + k.length = timeout)
      (hone : c.LK w = false → k.length = 1)
      (hrest : LoopCalls c timeout (steps + k.length) a' w' rest) :
      LoopCalls c timeout steps a w (k ++ Call.HostRead_Instruction a' w' :: rest)

/-- The method `CCodeWindow::ToggleBreakpoint()`. -/
def ToggleBreakpoint (s : Debugger σ) : Debugger σ :=
  if CCPU.IsStepping s then
    let s :=
      match s.codeview with
      | some selection => CCodeView.ToggleBreakpoint selection s
      | none => s
    Update s
  else
    s

end CCodeWindow

/-! ## The identifiers of `Globals.h`

The second, unnamed `enum` of `Source/Core/DolphinWX/Globals.h`, enumerator by
enumerator in declaration order.  An enumerator without an initialiser has the
value of the previous one plus one; `IDM_LOADSTATE`, `IDM_DRIVE24`,
`IDM_PERSPECTIVES_100` and `ID_TOOLBAR` carry the initialisers of the source. -/

def IDM_LOADSTATE : Nat := 200
def IDM_SAVESTATE : Nat := IDM_LOADSTATE + 1
def IDM_SELECTSLOT : Nat := IDM_SAVESTATE + 1
def IDM_SAVEFIRSTSTATE : Nat := IDM_SELECTSLOT + 1
def IDM_UNDOLOADSTATE : Nat := IDM_SAVEFIRSTSTATE + 1
def IDM_UNDOSAVESTATE : Nat := IDM_UNDOLOADSTATE + 1
def IDM_LOADSTATEFILE : Nat := IDM_UNDOSAVESTATE + 1
def IDM_SAVESTATEFILE : Nat := IDM_LOADSTATEFILE + 1
def IDM_SAVESLOT1 : Nat := IDM_SAVESTATEFILE + 1
def IDM_SAVESLOT2 : Nat := IDM_SAVESLOT1 + 1
def IDM_SAVESLOT3 : Nat := IDM_SAVESLOT2 + 1
def IDM_SAVESLOT4 : Nat := IDM_SAVESLOT3 + 1
def IDM_SAVESLOT5 : Nat := IDM_SAVESLOT4 + 1
def IDM_SAVESLOT6 : Nat := IDM_SAVESLOT5 + 1
def IDM_SAVESLOT7 : Nat := IDM_SAVESLOT6 + 1
def IDM_SAVESLOT8 : Nat := IDM_SAVESLOT7 + 1
def IDM_SAVESLOT9 : Nat := IDM_SAVESLOT8 + 1
def IDM_SAVESLOT10 : Nat := IDM_SAVESLOT9 + 1
def IDM_LOADSLOT1 : Nat := IDM_SAVESLOT10 + 1
def IDM_LOADSLOT2 : Nat := IDM_LOADSLOT1 + 1
def IDM_LOADSLOT3 : Nat := IDM_LOADSLOT2 + 1
def IDM_LOADSLOT4 : Nat := IDM_LOADSLOT3 + 1
def IDM_LOADSLOT5 : Nat := IDM_LOADSLOT4 + 1
def IDM_LOADSLOT6 : Nat := IDM_LOADSLOT5 + 1
def IDM_LOADSLOT7 : Nat := IDM_LOADSLOT6 + 1
def IDM_LOADSLOT8 : Nat := IDM_LOADSLOT7 + 1
def IDM_LOADSLOT9 : Nat := IDM_LOADSLOT8 + 1
def IDM_LOADSLOT10 : Nat := IDM_LOADSLOT9 + 1
def IDM_LOADLAST1 : Nat := IDM_LOADSLOT10 + 1
def IDM_LOADLAST2 : Nat := IDM_LOADLAST1 + 1
def IDM_LOADLAST3 : Nat := IDM_LOADLAST2 + 1
def IDM_LOADLAST4 : Nat := IDM_LOADLAST3 + 1
def IDM_LOADLAST5 : Nat := IDM_LOADLAST4 + 1
def IDM_LOADLAST6 : Nat := IDM_LOADLAST5 + 1
def IDM_LOADLAST7 : Nat := IDM_LOADLAST6 + 1
def IDM_LOADLAST8 : Nat := IDM_LOADLAST7 + 1
def IDM_SELECTSLOT1 : Nat := IDM_LOADLAST8 + 1
def IDM_SELECTSLOT2 : Nat := IDM_SELECTSLOT1 + 1
def IDM_SELECTSLOT3 : Nat := IDM_SELECTSLOT2 + 1
def IDM_SELECTSLOT4 : Nat := IDM_SELECTSLOT3 + 1
def IDM_SELECTSLOT5 : Nat := IDM_SELECTSLOT4 + 1
def IDM_SELECTSLOT6 : Nat := IDM_SELECTSLOT5 + 1
def IDM_SELECTSLOT7 : Nat := IDM_SELECTSLOT6 + 1
def IDM_SELECTSLOT8 : Nat := IDM_SELECTSLOT7 + 1
def IDM_SELECTSLOT9 : Nat := IDM_SELECTSLOT8 + 1
def IDM_SELECTSLOT10 : Nat := IDM_SELECTSLOT9 + 1
def IDM_SAVESELECTEDSLOT : Nat := IDM_SELECTSLOT10 + 1
def IDM_LOADSELECTEDSLOT : Nat := IDM_SAVESELECTEDSLOT + 1
def IDM_FRAMESKIP0 : Nat := IDM_LOADSELECTEDSLOT + 1
def IDM_FRAMESKIP1 : Nat := IDM_FRAMESKIP0 + 1
def IDM_FRAMESKIP2 : Nat := IDM_FRAMESKIP1 + 1
def IDM_FRAMESKIP3 : Nat := IDM_FRAMESKIP2 + 1
def IDM_FRAMESKIP4 : Nat := IDM_FRAMESKIP3 + 1
def IDM_FRAMESKIP5 : Nat := IDM_FRAMESKIP4 + 1
def IDM_FRAMESKIP6 : Nat := IDM_FRAMESKIP5 + 1
def IDM_FRAMESKIP7 : Nat := IDM_FRAMESKIP6 + 1
def IDM_FRAMESKIP8 : Nat := IDM_FRAMESKIP7 + 1
def IDM_FRAMESKIP9 : Nat := IDM_FRAMESKIP8 + 1
def IDM_PLAY : Nat := IDM_FRAMESKIP9 + 1
def IDM_STOP : Nat := IDM_PLAY + 1
def IDM_RESET : Nat := IDM_STOP + 1
def IDM_TOGGLE_FULLSCREEN : Nat := IDM_RESET + 1
def IDM_RECORD : Nat := IDM_TOGGLE_FULLSCREEN + 1
def IDM_PLAYRECORD : Nat := IDM_RECORD + 1
def IDM_RECORDEXPORT : Nat := IDM_PLAYRECORD + 1
def IDM_RECORDREADONLY : Nat := IDM_RECORDEXPORT + 1
def IDM_TASINPUT : Nat := IDM_RECORDREADONLY + 1
def IDM_TOGGLE_PAUSEMOVIE : Nat := IDM_TASINPUT + 1
def IDM_SHOWLAG : Nat := IDM_TOGGLE_PAUSEMOVIE + 1
def IDM_SHOWFRAMECOUNT : Nat := IDM_SHOWLAG + 1
def IDM_SHOWINPUTDISPLAY : Nat := IDM_SHOWFRAMECOUNT + 1
def IDM_FRAMESTEP : Nat := IDM_SHOWINPUTDISPLAY + 1
def IDM_SCREENSHOT : Nat := IDM_FRAMESTEP + 1
def IDM_TOGGLE_DUMPFRAMES : Nat := IDM_SCREENSHOT + 1
def IDM_TOGGLE_DUMPAUDIO : Nat := IDM_TOGGLE_DUMPFRAMES + 1
def IDM_BROWSE : Nat := IDM_TOGGLE_DUMPAUDIO + 1
def IDM_DRIVES : Nat := IDM_BROWSE + 1
def IDM_DRIVE1 : Nat := IDM_DRIVES + 1
def IDM_DRIVE24 : Nat := IDM_DRIVE1 + 23
def IDM_MEMCARD : Nat := IDM_DRIVE24 + 1
def IDM_CHEATS : Nat := IDM_MEMCARD + 1
def IDM_NETPLAY : Nat := IDM_CHEATS + 1
def IDM_RESTART : Nat := IDM_NETPLAY + 1
def IDM_CHANGEDISC : Nat := IDM_RESTART + 1
def IDM_LIST_CHANGEDISC : Nat := IDM_CHANGEDISC + 1
def IDM_PROPERTIES : Nat := IDM_LIST_CHANGEDISC + 1
def IDM_GAMEWIKI : Nat := IDM_PROPERTIES + 1
def IDM_LOAD_WII_MENU : Nat := IDM_GAMEWIKI + 1
def IDM_MENU_INSTALLWAD : Nat := IDM_LOAD_WII_MENU + 1
def IDM_LIST_INSTALLWAD : Nat := IDM_MENU_INSTALLWAD + 1
def IDM_FIFOPLAYER : Nat := IDM_LIST_INSTALLWAD + 1
def IDM_CONNECT_WIIMOTE1 : Nat := IDM_FIFOPLAYER + 1
def IDM_CONNECT_WIIMOTE2 : Nat := IDM_CONNECT_WIIMOTE1 + 1
def IDM_CONNECT_WIIMOTE3 : Nat := IDM_CONNECT_WIIMOTE2 + 1
def IDM_CONNECT_WIIMOTE4 : Nat := IDM_CONNECT_WIIMOTE3 + 1
def IDM_CONNECT_BALANCEBOARD : Nat := IDM_CONNECT_WIIMOTE4 + 1
def IDM_LISTWAD : Nat := IDM_CONNECT_BALANCEBOARD + 1
def IDM_LISTWII : Nat := IDM_LISTWAD + 1
def IDM_LISTGC : Nat := IDM_LISTWII + 1
def IDM_LISTJAP : Nat := IDM_LISTGC + 1
def IDM_LISTPAL : Nat := IDM_LISTJAP + 1
def IDM_LISTUSA : Nat := IDM_LISTPAL + 1
def IDM_LISTAUSTRALIA : Nat := IDM_LISTUSA + 1
def IDM_LISTFRANCE : Nat := IDM_LISTAUSTRALIA + 1
def IDM_LISTGERMANY : Nat := IDM_LISTFRANCE + 1
def IDM_LISTINTERNATIONAL : Nat := IDM_LISTGERMANY + 1
def IDM_LISTITALY : Nat := IDM_LISTINTERNATIONAL + 1
def IDM_LISTKOREA : Nat := IDM_LISTITALY + 1
def IDM_LISTNETHERLANDS : Nat := IDM_LISTKOREA + 1
def IDM_LISTRUSSIA : Nat := IDM_LISTNETHERLANDS + 1
def IDM_LISTSPAIN : Nat := IDM_LISTRUSSIA + 1
def IDM_LISTTAIWAN : Nat := IDM_LISTSPAIN + 1
def IDM_LIST_UNK : Nat := IDM_LISTTAIWAN + 1
def IDM_LISTDRIVES : Nat := IDM_LIST_UNK + 1
def IDM_PURGECACHE : Nat := IDM_LISTDRIVES + 1
def IDM_HELPWEBSITE : Nat := IDM_PURGECACHE + 1
def IDM_HELPONLINEDOCS : Nat := IDM_HELPWEBSITE + 1
def IDM_HELPGITHUB : Nat := IDM_HELPONLINEDOCS + 1
def IDM_CONFIG_GFX_BACKEND : Nat := IDM_HELPGITHUB + 1
def IDM_CONFIG_DSP_EMULATOR : Nat := IDM_CONFIG_GFX_BACKEND + 1
def IDM_CONFIG_CONTROLLERS : Nat := IDM_CONFIG_DSP_EMULATOR + 1
def IDM_CONFIG_HOTKEYS : Nat := IDM_CONFIG_CONTROLLERS + 1
def IDM_CONFIG_LOGGER : Nat := IDM_CONFIG_HOTKEYS + 1
def IDM_LOGWINDOW : Nat := IDM_CONFIG_LOGGER + 1
def IDM_LOGCONFIGWINDOW : Nat := IDM_LOGWINDOW + 1
def IDM_REGISTERWINDOW : Nat := IDM_LOGCONFIGWINDOW + 1
def IDM_WATCHWINDOW : Nat := IDM_REGISTERWINDOW + 1
def IDM_BREAKPOINTWINDOW : Nat := IDM_WATCHWINDOW + 1
def IDM_MEMORYWINDOW : Nat := IDM_BREAKPOINTWINDOW + 1
def IDM_JITWINDOW : Nat := IDM_MEMORYWINDOW + 1
def IDM_SOUNDWINDOW : Nat := IDM_JITWINDOW + 1
def IDM_VIDEOWINDOW : Nat := IDM_SOUNDWINDOW + 1
def IDM_CODEWINDOW : Nat := IDM_VIDEOWINDOW + 1
def IDM_SHOW_SYSTEM : Nat := IDM_CODEWINDOW + 1
def IDM_SHOW_BANNER : Nat := IDM_SHOW_SYSTEM + 1
def IDM_SHOW_NOTES : Nat := IDM_SHOW_BANNER + 1
def IDM_SHOW_ID : Nat := IDM_SHOW_NOTES + 1
def IDM_SHOW_REGION : Nat := IDM_SHOW_ID + 1
def IDM_SHOW_SIZE : Nat := IDM_SHOW_REGION + 1
def IDM_SHOW_STATE : Nat := IDM_SHOW_SIZE + 1
def IDM_LOGWINDOW_PARENT : Nat := IDM_SHOW_STATE + 1
def IDM_LOGCONFIGWINDOW_PARENT : Nat := IDM_LOGWINDOW_PARENT + 1
def IDM_REGISTERWINDOW_PARENT : Nat := IDM_LOGCONFIGWINDOW_PARENT + 1
def IDM_BREAKPOINTWINDOW_PARENT : Nat := IDM_REGISTERWINDOW_PARENT + 1
def IDM_MEMORYWINDOW_PARENT : Nat := IDM_BREAKPOINTWINDOW_PARENT + 1
def IDM_JITWINDOW_PARENT : Nat := IDM_MEMORYWINDOW_PARENT + 1
def IDM_SOUNDWINDOW_PARENT : Nat := IDM_JITWINDOW_PARENT + 1
def IDM_VIDEOWINDOW_PARENT : Nat := IDM_SOUNDWINDOW_PARENT + 1
def IDM_CODEWINDOW_PARENT : Nat := IDM_VIDEOWINDOW_PARENT + 1
def IDM_FLOAT_LOGWINDOW : Nat := IDM_CODEWINDOW_PARENT + 1
def IDM_FLOAT_LOGCONFIGWINDOW : Nat := IDM_FLOAT_LOGWINDOW + 1
def IDM_FLOAT_REGISTERWINDOW : Nat := IDM_FLOAT_LOGCONFIGWINDOW + 1
def IDM_FLOAT_BREAKPOINTWINDOW : Nat := IDM_FLOAT_REGISTERWINDOW + 1
def IDM_FLOAT_MEMORYWINDOW : Nat := IDM_FLOAT_BREAKPOINTWINDOW + 1
def IDM_FLOAT_JITWINDOW : Nat := IDM_FLOAT_MEMORYWINDOW + 1
def IDM_FLOAT_SOUNDWINDOW : Nat := IDM_FLOAT_JITWINDOW + 1
def IDM_FLOAT_VIDEOWINDOW : Nat := IDM_FLOAT_SOUNDWINDOW + 1
def IDM_FLOAT_CODEWINDOW : Nat := IDM_FLOAT_VIDEOWINDOW + 1
def IDM_INTERPRETER : Nat := IDM_FLOAT_CODEWINDOW + 1
def IDM_AUTOMATICSTART : Nat := IDM_INTERPRETER + 1
def IDM_BOOTTOPAUSE : Nat := IDM_AUTOMATICSTART + 1
def IDM_JITNOBLOCKCACHE : Nat := IDM_BOOTTOPAUSE + 1
def IDM_JITNOBLOCKLINKING : Nat := IDM_JITNOBLOCKCACHE + 1
def IDM_JITOFF : Nat := IDM_JITNOBLOCKLINKING + 1
def IDM_JITLSOFF : Nat := IDM_JITOFF + 1
def IDM_JITLSLXZOFF : Nat := IDM_JITLSOFF + 1
def IDM_JITLSLWZOFF : Nat := IDM_JITLSLXZOFF + 1
def IDM_JITLSLBZXOFF : Nat := IDM_JITLSLWZOFF + 1
def IDM_JITLSPOFF : Nat := IDM_JITLSLBZXOFF + 1
def IDM_JITLSFOFF : Nat := IDM_JITLSPOFF + 1
def IDM_JITIOFF : Nat := IDM_JITLSFOFF + 1
def IDM_JITFPOFF : Nat := IDM_JITIOFF + 1
def IDM_JITPOFF : Nat := IDM_JITFPOFF + 1
def IDM_JITSROFF : Nat := IDM_JITPOFF + 1
def IDM_FONTPICKER : Nat := IDM_JITSROFF + 1
def IDM_CLEARSYMBOLS : Nat := IDM_FONTPICKER + 1
def IDM_SCANFUNCTIONS : Nat := IDM_CLEARSYMBOLS + 1
def IDM_LOADMAPFILE : Nat := IDM_SCANFUNCTIONS + 1
def IDM_LOADMAPFILEAS : Nat := IDM_LOADMAPFILE + 1
def IDM_LOADBADMAPFILE : Nat := IDM_LOADMAPFILEAS + 1
def IDM_SAVEMAPFILE : Nat := IDM_LOADBADMAPFILE + 1
def IDM_SAVEMAPFILEWITHCODES : Nat := IDM_SAVEMAPFILE + 1
def IDM_SAVEMAPFILEAS : Nat := IDM_SAVEMAPFILEWITHCODES + 1
def IDM_CREATESIGNATUREFILE : Nat := IDM_SAVEMAPFILEAS + 1
def IDM_APPENDSIGNATUREFILE : Nat := IDM_CREATESIGNATUREFILE + 1
def IDM_COMBINESIGNATUREFILES : Nat := IDM_APPENDSIGNATUREFILE + 1
def IDM_RENAME_SYMBOLS : Nat := IDM_COMBINESIGNATUREFILES + 1
def IDM_USESIGNATUREFILE : Nat := IDM_RENAME_SYMBOLS + 1
def IDM_PATCHHLEFUNCTIONS : Nat := IDM_USESIGNATUREFILE + 1
def IDM_CLEARCODECACHE : Nat := IDM_PATCHHLEFUNCTIONS + 1
def IDM_LOGINSTRUCTIONS : Nat := IDM_CLEARCODECACHE + 1
def IDM_SEARCHINSTRUCTION : Nat := IDM_LOGINSTRUCTIONS + 1
def IDM_PROFILEBLOCKS : Nat := IDM_SEARCHINSTRUCTION + 1
def IDM_WRITEPROFILE : Nat := IDM_PROFILEBLOCKS + 1
def ID_TOOLBAR_DEBUG : Nat := IDM_WRITEPROFILE + 1
def IDM_STEP : Nat := ID_TOOLBAR_DEBUG + 1
def IDM_STEPOVER : Nat := IDM_STEP + 1
def IDM_STEPOUT : Nat := IDM_STEPOVER + 1
def IDM_TOGGLE_BREAKPOINT : Nat := IDM_STEPOUT + 1
def IDM_SKIP : Nat := IDM_TOGGLE_BREAKPOINT + 1
def IDM_SETPC : Nat := IDM_SKIP + 1
def IDM_GOTOPC : Nat := IDM_SETPC + 1
def IDM_ADDRBOX : Nat := IDM_GOTOPC + 1
def ID_TOOLBAR_AUI : Nat := IDM_ADDRBOX + 1
def IDM_SAVE_PERSPECTIVE : Nat := ID_TOOLBAR_AUI + 1
def IDM_ADD_PERSPECTIVE : Nat := IDM_SAVE_PERSPECTIVE + 1
def IDM_PERSPECTIVES_ADD_PANE : Nat := IDM_ADD_PERSPECTIVE + 1
def IDM_EDIT_PERSPECTIVES : Nat := IDM_PERSPECTIVES_ADD_PANE + 1
def IDM_TAB_SPLIT : Nat := IDM_EDIT_PERSPECTIVES + 1
def IDM_NO_DOCKING : Nat := IDM_TAB_SPLIT + 1
def IDM_PERSPECTIVES_0 : Nat := IDM_NO_DOCKING + 1
def IDM_PERSPECTIVES_100 : Nat := IDM_PERSPECTIVES_0 + 100
def IDM_TOGGLE_DUALCORE : Nat := IDM_PERSPECTIVES_100 + 1
def IDM_TOGGLE_SKIPIDLE : Nat := IDM_TOGGLE_DUALCORE + 1
def IDM_TOGGLE_TOOLBAR : Nat := IDM_TOGGLE_SKIPIDLE + 1
def IDM_TOGGLE_STATUSBAR : Nat := IDM_TOGGLE_TOOLBAR + 1
def IDM_NOTIFYMAPLOADED : Nat := IDM_TOGGLE_STATUSBAR + 1
def IDM_OPENCONTAININGFOLDER : Nat := IDM_NOTIFYMAPLOADED + 1
def IDM_OPENSAVEFOLDER : Nat := IDM_OPENCONTAININGFOLDER + 1
def IDM_EXPORTSAVE : Nat := IDM_OPENSAVEFOLDER + 1
def IDM_IMPORTSAVE : Nat := IDM_EXPORTSAVE + 1
def IDM_EXPORTALLSAVE : Nat := IDM_IMPORTSAVE + 1
def IDM_SETDEFAULTISO : Nat := IDM_EXPORTALLSAVE + 1
def IDM_DELETEISO : Nat := IDM_SETDEFAULTISO + 1
def IDM_COMPRESSISO : Nat := IDM_DELETEISO + 1
def IDM_MULTICOMPRESSISO : Nat := IDM_COMPRESSISO + 1
def IDM_MULTIDECOMPRESSISO : Nat := IDM_MULTICOMPRESSISO + 1
def IDM_UPDATEDISASMDIALOG : Nat := IDM_MULTIDECOMPRESSISO + 1
def IDM_UPDATEGUI : Nat := IDM_UPDATEDISASMDIALOG + 1
def IDM_UPDATESTATUSBAR : Nat := IDM_UPDATEGUI + 1
def IDM_UPDATETITLE : Nat := IDM_UPDATESTATUSBAR + 1
def IDM_UPDATEBREAKPOINTS : Nat := IDM_UPDATETITLE + 1
def IDM_UPDATEJITPANE : Nat := IDM_UPDATEBREAKPOINTS + 1
def IDM_PANIC : Nat := IDM_UPDATEJITPANE + 1
def IDM_KEYSTATE : Nat := IDM_PANIC + 1
def IDM_WINDOWSIZEREQUEST : Nat := IDM_KEYSTATE + 1
def IDM_STOPPED : Nat := IDM_WINDOWSIZEREQUEST + 1
def IDM_HOST_MESSAGE : Nat := IDM_STOPPED + 1
def IDM_FULLSCREENREQUEST : Nat := IDM_HOST_MESSAGE + 1
def IDM_MPANEL : Nat := IDM_FULLSCREENREQUEST + 1
def ID_STATUSBAR : Nat := IDM_MPANEL + 1
def IDM_FREELOOK_INCREASE_SPEED : Nat := ID_STATUSBAR + 1
def IDM_FREELOOK_DECREASE_SPEED : Nat := IDM_FREELOOK_INCREASE_SPEED + 1
def IDM_FREELOOK_RESET_SPEED : Nat := IDM_FREELOOK_DECREASE_SPEED + 1
def IDM_FREELOOK_UP : Nat := IDM_FREELOOK_RESET_SPEED + 1
def IDM_FREELOOK_DOWN : Nat := IDM_FREELOOK_UP + 1
def IDM_FREELOOK_LEFT : Nat := IDM_FREELOOK_DOWN + 1
def IDM_FREELOOK_RIGHT : Nat := IDM_FREELOOK_LEFT + 1
def IDM_FREELOOK_ZOOM_IN : Nat := IDM_FREELOOK_RIGHT + 1
def IDM_FREELOOK_ZOOM_OUT : Nat := IDM_FREELOOK_ZOOM_IN + 1
def IDM_FREELOOK_RESET : Nat := IDM_FREELOOK_ZOOM_OUT + 1
def ID_TOOLBAR : Nat := 500

/-- The named enumerators of the `enum`, in declaration order. -/
def enumerators : List Nat :=
  [ IDM_LOADSTATE, IDM_SAVESTATE, IDM_SELECTSLOT, IDM_SAVEFIRSTSTATE, IDM_UNDOLOADSTATE,
    IDM_UNDOSAVESTATE, IDM_LOADSTATEFILE, IDM_SAVESTATEFILE, IDM_SAVESLOT1, IDM_SAVESLOT2,
    IDM_SAVESLOT3, IDM_SAVESLOT4, IDM_SAVESLOT5, IDM_SAVESLOT6, IDM_SAVESLOT7, IDM_SAVESLOT8,
    IDM_SAVESLOT9, IDM_SAVESLOT10, IDM_LOADSLOT1, IDM_LOADSLOT2, IDM_LOADSLOT3, IDM_LOADSLOT4,
    IDM_LOADSLOT5, IDM_LOADSLOT6, IDM_LOADSLOT7, IDM_LOADSLOT8, IDM_LOADSLOT9, IDM_LOADSLOT10,
    IDM_LOADLAST1, IDM_LOADLAST2, IDM_LOADLAST3, IDM_LOADLAST4, IDM_LOADLAST5, IDM_LOADLAST6,
    IDM_LOADLAST7, IDM_LOADLAST8, IDM_SELECTSLOT1, IDM_SELECTSLOT2, IDM_SELECTSLOT3,
    IDM_SELECTSLOT4, IDM_SELECTSLOT5, IDM_SELECTSLOT6, IDM_SELECTSLOT7, IDM_SELECTSLOT8,
    IDM_SELECTSLOT9, IDM_SELECTSLOT10, IDM_SAVESELECTEDSLOT, IDM_LOADSELECTEDSLOT,
    IDM_FRAMESKIP0, IDM_FRAMESKIP1, IDM_FRAMESKIP2, IDM_FRAMESKIP3, IDM_FRAMESKIP4,
    IDM_FRAMESKIP5, IDM_FRAMESKIP6, IDM_FRAMESKIP7, IDM_FRAMESKIP8, IDM_FRAMESKIP9, IDM_PLAY,
    IDM_STOP, IDM_RESET, IDM_TOGGLE_FULLSCREEN, IDM_RECORD, IDM_PLAYRECORD, IDM_RECORDEXPORT,
    IDM_RECORDREADONLY, IDM_TASINPUT, IDM_TOGGLE_PAUSEMOVIE, IDM_SHOWLAG, IDM_SHOWFRAMECOUNT,
    IDM_SHOWINPUTDISPLAY, IDM_FRAMESTEP, IDM_SCREENSHOT, IDM_TOGGLE_DUMPFRAMES,
    IDM_TOGGLE_DUMPAUDIO, IDM_BROWSE, IDM_DRIVES, IDM_DRIVE1, IDM_DRIVE24, IDM_MEMCARD,
    IDM_CHEATS, IDM_NETPLAY, IDM_RESTART, IDM_CHANGEDISC, IDM_LIST_CHANGEDISC, IDM_PROPERTIES,
    IDM_GAMEWIKI, IDM_LOAD_WII_MENU, IDM_MENU_INSTALLWAD, IDM_LIST_INSTALLWAD, IDM_FIFOPLAYER,
    IDM_CONNECT_WIIMOTE1, IDM_CONNECT_WIIMOTE2, IDM_CONNECT_WIIMOTE3, IDM_CONNECT_WIIMOTE4,
    IDM_CONNECT_BALANCEBOARD, IDM_LISTWAD, IDM_LISTWII, IDM_LISTGC, IDM_LISTJAP, IDM_LISTPAL,
    IDM_LISTUSA, IDM_LISTAUSTRALIA, IDM_LISTFRANCE, IDM_LISTGERMANY, IDM_LISTINTERNATIONAL,
    IDM_LISTITALY, IDM_LISTKOREA, IDM_LISTNETHERLANDS, IDM_LISTRUSSIA, IDM_LISTSPAIN,
    IDM_LISTTAIWAN, IDM_LIST_UNK, IDM_LISTDRIVES, IDM_PURGECACHE, IDM_HELPWEBSITE,
    IDM_HELPONLINEDOCS, IDM_HELPGITHUB, IDM_CONFIG_GFX_BACKEND, IDM_CONFIG_DSP_EMULATOR,
    IDM_CONFIG_CONTROLLERS, IDM_CONFIG_HOTKEYS, IDM_CONFIG_LOGGER, IDM_LOGWINDOW,
    IDM_LOGCONFIGWINDOW, IDM_REGISTERWINDOW, IDM_WATCHWINDOW, IDM_BREAKPOINTWINDOW,
    IDM_MEMORYWINDOW, IDM_JITWINDOW, IDM_SOUNDWINDOW, IDM_VIDEOWINDOW, IDM_CODEWINDOW,
    IDM_SHOW_SYSTEM, IDM_SHOW_BANNER, IDM_SHOW_NOTES, IDM_SHOW_ID, IDM_SHOW_REGION,
    IDM_SHOW_SIZE, IDM_SHOW_STATE, IDM_LOGWINDOW_PARENT, IDM_LOGCONFIGWINDOW_PARENT,
    IDM_REGISTERWINDOW_PARENT, IDM_BREAKPOINTWINDOW_PARENT, IDM_MEMORYWINDOW_PARENT,
    IDM_JITWINDOW_PARENT, IDM_SOUNDWINDOW_PARENT, IDM_VIDEOWINDOW_PARENT, IDM_CODEWINDOW_PARENT,
    IDM_FLOAT_LOGWINDOW, IDM_FLOAT_LOGCONFIGWINDOW, IDM_FLOAT_REGISTERWINDOW,
    IDM_FLOAT_BREAKPOINTWINDOW, IDM_FLOAT_MEMORYWINDOW, IDM_FLOAT_JITWINDOW,
    IDM_FLOAT_SOUNDWINDOW, IDM_FLOAT_VIDEOWINDOW, IDM_FLOAT_CODEWINDOW, IDM_INTERPRETER,
    IDM_AUTOMATICSTART, IDM_BOOTTOPAUSE, IDM_JITNOBLOCKCACHE, IDM_JITNOBLOCKLINKING, IDM_JITOFF,
    IDM_JITLSOFF, IDM_JITLSLXZOFF, IDM_JITLSLWZOFF, IDM_JITLSLBZXOFF, IDM_JITLSPOFF,
    IDM_JITLSFOFF, IDM_JITIOFF, IDM_JITFPOFF, IDM_JITPOFF, IDM_JITSROFF, IDM_FONTPICKER,
    IDM_CLEARSYMBOLS, IDM_SCANFUNCTIONS, IDM_LOADMAPFILE, IDM_LOADMAPFILEAS, IDM_LOADBADMAPFILE,
    IDM_SAVEMAPFILE, IDM_SAVEMAPFILEWITHCODES, IDM_SAVEMAPFILEAS, IDM_CREATESIGNATUREFILE,
    IDM_APPENDSIGNATUREFILE, IDM_COMBINESIGNATUREFILES, IDM_RENAME_SYMBOLS,
    IDM_USESIGNATUREFILE, IDM_PATCHHLEFUNCTIONS, IDM_CLEARCODECACHE, IDM_LOGINSTRUCTIONS,
    IDM_SEARCHINSTRUCTION, IDM_PROFILEBLOCKS, IDM_WRITEPROFILE, ID_TOOLBAR_DEBUG, IDM_STEP,
    IDM_STEPOVER, IDM_STEPOUT, IDM_TOGGLE_BREAKPOINT, IDM_SKIP, IDM_SETPC, IDM_GOTOPC,
    IDM_ADDRBOX, ID_TOOLBAR_AUI, IDM_SAVE_PERSPECTIVE, IDM_ADD_PERSPECTIVE,
    IDM_PERSPECTIVES_ADD_PANE, IDM_EDIT_PERSPECTIVES, IDM_TAB_SPLIT, IDM_NO_DOCKING,
    IDM_PERSPECTIVES_0, IDM_PERSPECTIVES_100, IDM_TOGGLE_DUALCORE, IDM_TOGGLE_SKIPIDLE,
    IDM_TOGGLE_TOOLBAR, IDM_TOGGLE_STATUSBAR, IDM_NOTIFYMAPLOADED, IDM_OPENCONTAININGFOLDER,
    IDM_OPENSAVEFOLDER, IDM_EXPORTSAVE, IDM_IMPORTSAVE, IDM_EXPORTALLSAVE, IDM_SETDEFAULTISO,
    IDM_DELETEISO, IDM_COMPRESSISO, IDM_MULTICOMPRESSISO, IDM_MULTIDECOMPRESSISO,
    IDM_UPDATEDISASMDIALOG, IDM_UPDATEGUI, IDM_UPDATESTATUSBAR, IDM_UPDATETITLE,
    IDM_UPDATEBREAKPOINTS, IDM_UPDATEJITPANE, IDM_PANIC, IDM_KEYSTATE, IDM_WINDOWSIZEREQUEST,
    IDM_STOPPED, IDM_HOST_MESSAGE, IDM_FULLSCREENREQUEST, IDM_MPANEL, ID_STATUSBAR,
    IDM_FREELOOK_INCREASE_SPEED, IDM_FREELOOK_DECREASE_SPEED, IDM_FREELOOK_RESET_SPEED,
    IDM_FREELOOK_UP, IDM_FREELOOK_DOWN, IDM_FREELOOK_LEFT, IDM_FREELOOK_RIGHT,
    IDM_FREELOOK_ZOOM_IN, IDM_FREELOOK_ZOOM_OUT, IDM_FREELOOK_RESET, ID_TOOLBAR ]

/-- Is `id` one of the 24 drive identifiers `IDM_DRIVE1 .. IDM_DRIVE24`? -/
def isDriveId (id : Nat) : Bool :=
  IDM_DRIVE1 ≤ id ∧ id ≤ IDM_DRIVE24

/-- Is `id` one of the 101 perspective identifiers
`IDM_PERSPECTIVES_0 .. IDM_PERSPECTIVES_100`? -/
def isPerspectiveId (id : Nat) : Bool :=
  IDM_PERSPECTIVES_0 ≤ id ∧ id ≤ IDM_PERSPECTIVES_100

/-! ## The event handlers of `CCodeWindow` -/

/-- The two background colours `OnAddrBoxChange` sets on the address box. -/
inductive wxColour where
  | wxNullColour
  | wxRED
  deriving DecidableEq, Repr

/-- The operations of `wxString` that `OnAddrBoxChange` calls, over a type `τ`
of texts: `Trim(bool fromRight)` and `ToULong(&value, base)`, which gives the
parsed value or nothing when the text does not parse. -/
structure WxString (τ : Type) where
  Trim : Bool → τ → τ
  ToULong : τ → Nat → Option Nat

namespace CCodeWindow

/-- The identifiers for which the constructor binds `OnCodeStep`:
`Bind(wxEVT_MENU, &CCodeWindow::OnCodeStep, this, IDM_STEP, IDM_GOTOPC)` binds
the handler to every identifier from the first to the last, both included. -/
def OnCodeStep_bound (id : Nat) : Bool :=
  IDM_STEP ≤ id ∧ id ≤ IDM_GOTOPC

/-- The case labels of the `switch (event.GetId())` of `OnCodeStep`, in source
order. -/
def OnCodeStep_cases : List Nat :=
  [ IDM_STEP, IDM_STEPOVER, IDM_STEPOUT, IDM_TOGGLE_BREAKPOINT, IDM_SKIP, IDM_SETPC,
    IDM_GOTOPC ]

/-- The method `CCodeWindow::OnCodeStep(wxCommandEvent& event)`, for the event
identifier `id`.  `IDM_SETPC` reads `codeview->GetSelection()`; with a null
`codeview` the source dereferences a null pointer, and the model leaves `PC`
as it is. -/
def OnCodeStep (c : Core σ) (id : Nat) (s : Debugger σ) : Debugger σ :=
  let s :=
    if id = IDM_STEP then
      SingleStep c s
    else if id = IDM_STEPOVER then
      StepOver c s
    else if id = IDM_STEPOUT then
      StepOut c s
    else if id = IDM_TOGGLE_BREAKPOINT then
      ToggleBreakpoint s
    else if id = IDM_SKIP then
      let s := { s with cpu := { s.cpu with pc := (s.cpu.pc + 4) % 2 ^ 32 } }
      Update s
    else if id = IDM_SETPC then
      let s :=
        match s.codeview with
        | some selection => { s with cpu := { s.cpu with pc := selection } }
        | none => s
      Update s
    else if id = IDM_GOTOPC then
      (JumpToAddress s.cpu.pc s).2
    else
      s
  let s := UpdateButtonStates s
  UpdateGUI s

/-- The method `CCodeWindow::OnAddrBoxChange(wxCommandEvent& event)`.  The
argument `toolBar` is `none` when `GetToolBar()` is null and otherwise the text
of the `IDM_ADDRBOX` control.  Returns the state and the background colour set
on the control, if any.  The `unsigned long addr` is passed to the `u32`
parameter of `JumpToAddress`, that is, modulo `2 ^ 32`. -/
def OnAddrBoxChange {τ : Type} (w : WxString τ) (toolBar : Option τ) (s : Debugger σ) :
    Debugger σ × Option wxColour :=
  match toolBar with
  | none => (s, none)
  | some value =>
    let txt := w.Trim false (w.Trim true value)
    match w.ToULong txt 16 with
    | some addr =>
      let r := JumpToAddress (addr % 2 ^ 32) s
      if r.1 then (r.2, some wxColour.wxNullColour) else (r.2, some wxColour.wxRED)
    | none => (s, some wxColour.wxRED)

end CCodeWindow

/-- Is the call a request to execute an instruction: `PowerPC::SingleStep()` or
`CCPU::StepOpcode()`? -/
def Call.isStepRequest : Call → Bool
  | .SingleStep _ _ => true
  | .StepOpcode => true
  | _ => false

/-- Number of requests to execute an instruction in a list of calls. -/
def stepRequests (t : List Call) : Nat :=
  t.countP Call.isStepRequest

/-- The effect of a command on `PC` is that of its step requests: the state
`s'` extends the calls of `s`, and its `PC` is reached from a core state with
the `PC` and registers of `s` by as many single steps as the new calls
request. -/
def PcBySteps (c : Core σ) (s s' : Debugger σ) : Prop :=
  ∃ (l : List Call) (m : Machine σ), s'.trace = s.trace ++ l ∧ m.pc = s.cpu.pc ∧
    m.regs = s.cpu.regs ∧ s'.cpu.pc = (c.SingleStep^[stepRequests l] m).pc

/-- The primary opcode of a 32-bit PowerPC instruction word: its six most
significant bits.  The branch instructions are those with primary opcode 16,
18 or 19. -/
def primaryOpcode (hex : Nat) : Nat :=
  hex / 2 ^ 26 % 64

/-! ## A small concrete core -/

/-- Registers of the example core: the link register. -/
structure ToyRegs where
  lr : Nat
  deriving DecidableEq, Repr

/-- Example memory: a call to `0x2000` at `0x1000`, two no-ops, a return at
`0x100C`, and a return at `0x2000`. -/
def toyMemory (address : Nat) : Nat :=
  if address = 0x1000 then 0x48001001
  else if address = 0x100C then 0x4e800020
  else if address = 0x2000 then 0x4e800020
  else 0x60000000

/-- Example memory without any return: a call to `0x2000` at `0x1000`, no-ops
everywhere else. -/
def toyMemoryNoReturn (address : Nat) : Nat :=
  if address = 0x1000 then 0x48001001 else 0x60000000

/-- One instruction of the example core: a return jumps to the link register, a
relative branch (primary opcode 18) jumps and, with the link bit set, stores
`PC + 4` in the link register; any other word falls through to `PC + 4`. -/
def toyStep (memory : Nat → Nat) (m : Machine ToyRegs) : Machine ToyRegs :=
  let w := memory m.pc
  if w = 0x4e800020 then
    { m with pc := m.regs.lr }
  else if w / 2 ^ 26 = 18 then
    { m with
      pc := (m.pc + (w % 2 ^ 26) / 4 * 4) % 2 ^ 32
      regs := if w % 2 = 1 then { lr := (m.pc + 4) % 2 ^ 32 } else m.regs }
  else
    { m with pc := (m.pc + 4) % 2 ^ 32 }

/-- The example core over a memory, with a step budget. -/
def toyCore (memory : Nat → Nat) (ticks : Nat) : Core ToyRegs where
  SingleStep := toyStep memory
  HostRead_Instruction := fun _ address => memory address
  LK := fun w => w % 2 = 1
  GetTicksPerSecond := ticks

/-- A paused example machine at `pc` with link register `lr`, in compiled mode. -/
def toyState (pc lr : Nat) : Debugger ToyRegs where
  cpu := { pc := pc, mode := CoreMode.MODE_JIT, stepping := true, breakpoints := [],
           regs := { lr := lr } }
  codeview := some 0
  trace := []

/-- A paused example machine at the call at `0x1000` that already has a
temporary breakpoint at `0x1008` and a permanent one at `0x2000`. -/
def toyStateWithBreakpoints : Debugger ToyRegs where
  cpu := { pc := 0x1000, mode := CoreMode.MODE_JIT, stepping := true,
           breakpoints := [{ iAddress := 0x1008, bTemporary := true },
                           { iAddress := 0x2000, bTemporary := false }],
           regs := { lr := 0 } }
  codeview := some 0x1000
  trace := []

/-- A running (not paused) example machine. -/
def toyRunning : Debugger ToyRegs where
  cpu := { pc := 0x1000, mode := CoreMode.MODE_JIT, stepping := false,
           breakpoints := [{ iAddress := 0x1008, bTemporary := true }],
           regs := { lr := 0 } }
  codeview := some 0x1000
  trace := []

/-- Example memory with the record-form arithmetic word `0x7C632A15` at
`0x1004` and no-ops everywhere else. -/
def toyMemoryRecordForm (address : Nat) : Nat :=
  if address = 0x1004 then 0x7C632A15 else 0x60000000

/-- Example texts for the address box: a text is what it parses to. -/
def toyWxString : WxString (Option Nat) where
  Trim := fun _ value => value
  ToULong := fun value _ => value

/-- The calls made by the user-interface refresh `JumpToAddress(PC); Update();`
that closes each stepping operation, for the `PC` and the view at that point. -/
def refreshCalls (pc : Nat) (codeview : Option Nat) : List Call :=
  (if pc ≤ 0xFFFFFFFF then [Call.Center pc, Call.UpdateLists] else []) ++
    (if codeview.isSome then
      [Call.Refresh, Call.UpdateCallstack, Call.UpdateButtonStates] else [])

/-! ## Frame lemmas for the user-interface calls -/

namespace CCodeWindow

@[simp] theorem record_cpu (e : Call) (s : Debugger σ) : (record e s).cpu = s.cpu := rfl

@[simp] theorem record_codeview (e : Call) (s : Debugger σ) :
    (record e s).codeview = s.codeview := rfl

@[simp] theorem record_trace (e : Call) (s : Debugger σ) :
    (record e s).trace = s.trace ++ [e] := rfl

@[simp] theorem Update_cpu (s : Debugger σ) : (Update s).cpu = s.cpu := by
  unfold Update; split <;> rfl

@[simp] theorem Update_codeview (s : Debugger σ) : (Update s).codeview = s.codeview := by
  unfold Update; split <;> rfl

theorem Update_trace (s : Debugger σ) :
    (Update s).trace = s.trace ++
      (if s.codeview.isSome then
        [Call.Refresh, Call.UpdateCallstack, Call.UpdateButtonStates] else []) := by
  unfold Update
  cases h : s.codeview <;> simp [UpdateCallstack, UpdateButtonStates]

@[simp] theorem UpdateButtonStates_cpu (s : Debugger σ) : (UpdateButtonStates s).cpu = s.cpu :=
  rfl

@[simp] theorem UpdateGUI_cpu (s : Debugger σ) : (UpdateGUI s).cpu = s.cpu := rfl

@[simp] theorem JumpToAddress_cpu (address : Nat) (s : Debugger σ) :
    (JumpToAddress address s).2.cpu = s.cpu := by
  unfold JumpToAddress; split <;> rfl

theorem JumpToAddress_trace (address : Nat) (s : Debugger σ) :
    (JumpToAddress address s).2.trace = s.trace ++
      (if address ≤ 0xFFFFFFFF then [Call.Center address, Call.UpdateLists] else []) := by
  unfold JumpToAddress
  split <;> simp [UpdateLists, CCodeView.Center]

/-- The calls made by the closing user-interface refresh
`JumpToAddress(PC); Update();`. -/
theorem refresh_trace (s : Debugger σ) :
    (Update (JumpToAddress s.cpu.pc s).2).trace =
      s.trace ++ refreshCalls s.cpu.pc s.codeview := by
  rw [Update_trace, JumpToAddress_trace, List.append_assoc, refreshCalls]
  congr 2
  unfold JumpToAddress
  split <;> cases hcv : s.codeview <;> simp [UpdateLists, CCodeView.Center, hcv]

/-- The refresh moves the selection of the view to the address, when there is a
view and the address passes the range check. -/
theorem refresh_codeview (s : Debugger σ) :
    (Update (JumpToAddress s.cpu.pc s).2).codeview =
      if s.cpu.pc ≤ 0xFFFFFFFF then s.codeview.map (fun _ => s.cpu.pc) else s.codeview := by
  rw [Update_codeview]
  unfold JumpToAddress
  split <;> simp [UpdateLists, CCodeView.Center]

/-- The refresh calls are not calls on the core. -/
theorem refreshCalls_not_core (pc : Nat) (codeview : Option Nat) :
    ∀ e ∈ refreshCalls pc codeview,
      e.isCoreEffect = false ∧ e.isSingleStep = false ∧ e.isHostRead = false := by
  intro e he
  simp only [refreshCalls, List.mem_append] at he
  rcases he with he | he
  · split at he
    · simp at he
      rcases he with rfl | rfl <;> simp [Call.isCoreEffect, Call.isSingleStep, Call.isHostRead]
    · simp at he
  · split at he
    · simp at he
      rcases he with rfl | rfl | rfl <;>
        simp [Call.isCoreEffect, Call.isSingleStep, Call.isHostRead]
    · simp at he

theorem refreshCalls_filter (pc : Nat) (codeview : Option Nat) :
    (refreshCalls pc codeview).filter Call.isCoreEffect = [] := by
  rw [List.filter_eq_nil_iff]
  intro e he
  simp [(refreshCalls_not_core pc codeview e he).1]

theorem refreshCalls_singleSteps (pc : Nat) (codeview : Option Nat) :
    singleSteps (refreshCalls pc codeview) = 0 := by
  rw [singleSteps, List.countP_eq_zero]
  intro e he
  simp [(refreshCalls_not_core pc codeview e he).2.1]

theorem refreshCalls_stepRequests (pc : Nat) (codeview : Option Nat) :
    stepRequests (refreshCalls pc codeview) = 0 := by
  rw [stepRequests, List.countP_eq_zero]
  intro e he
  have h := (refreshCalls_not_core pc codeview e he).1
  cases e <;> simp_all [Call.isCoreEffect, Call.isStepRequest]

/-- The state `SingleStep` returns in the stepping state, field by field. -/
theorem SingleStep_fields (c : Core σ) (s : Debugger σ) (h : CCPU.IsStepping s = true) :
    (SingleStep c s).cpu = c.SingleStep (PowerPC.breakpoints.ClearAllTemporary s).cpu ∧
      (SingleStep c s).trace = s.trace ++
        ([Call.ClearAllTemporary, Call.InvalidateICache s.cpu.pc 4 true, Call.StepOpcode,
          Call.Sleep 20] ++
          refreshCalls (c.SingleStep (PowerPC.breakpoints.ClearAllTemporary s).cpu).pc
            s.codeview) ∧
      (SingleStep c s).codeview =
        (if (c.SingleStep (PowerPC.breakpoints.ClearAllTemporary s).cpu).pc ≤ 0xFFFFFFFF then
          s.codeview.map (fun _ => (c.SingleStep (PowerPC.breakpoints.ClearAllTemporary s).cpu).pc)
        else s.codeview) := by
  simp only [SingleStep, h, if_true]
  refine ⟨?_, ?_, ?_⟩
  · simp [wxThread.Sleep, CCPU.StepOpcode, JitInterface.InvalidateICache]
  · rw [refresh_trace]
    simp [wxThread.Sleep, CCPU.StepOpcode, JitInterface.InvalidateICache,
      PowerPC.breakpoints.ClearAllTemporary]
  · rw [refresh_codeview]
    simp [wxThread.Sleep, CCPU.StepOpcode, JitInterface.InvalidateICache,
      PowerPC.breakpoints.ClearAllTemporary]

/-! ## Operations outside the stepping state -/

/-- C1: when `IsStepping()` is false, each of `SingleStep` (StepInto),
`StepOver`, `StepOut` and `ToggleBreakpoint` returns the state it was given:
the core (PC, mode, breakpoints, stepping flag), the view and the list of
calls made are all unchanged, so no single step, cache invalidation or
breakpoint change is issued. -/
theorem not_stepping_is_noop (c : Core σ) (s : Debugger σ) (h : CCPU.IsStepping s = false) :
    SingleStep c s = s ∧ StepOver c s = s ∧ StepOut c s = s ∧ ToggleBreakpoint s = s := by
  simp [SingleStep, StepOver, StepOut, ToggleBreakpoint, h]

theorem not_stepping_is_noop_witness :
    CCPU.IsStepping toyRunning = false ∧
      (SingleStep (toyCore toyMemory 3) toyRunning = toyRunning ∧
        StepOver (toyCore toyMemory 3) toyRunning = toyRunning ∧
        StepOut (toyCore toyMemory 3) toyRunning = toyRunning ∧
        ToggleBreakpoint toyRunning = toyRunning) :=
  ⟨rfl, not_stepping_is_noop (toyCore toyMemory 3) toyRunning rfl⟩

/-! ## StepInto and StepOver -/

/-- C6: in the stepping state, `SingleStep` (StepInto) first clears the
temporary breakpoints, then invalidates the instruction cache for the 4 bytes
at the `PC` held before the step with `force` set, then requests one
instruction step: these are, in this order, its only calls on the core, and the
resulting core state is one single step of the core taken with no temporary
breakpoint left. -/
theorem SingleStep_effects (c : Core σ) (s : Debugger σ) (h : CCPU.IsStepping s = true) :
    (newCalls s (SingleStep c s)).filter Call.isCoreEffect =
        [Call.ClearAllTemporary, Call.InvalidateICache s.cpu.pc 4 true, Call.StepOpcode] ∧
      (newCalls s (SingleStep c s)).take 4 =
        [Call.ClearAllTemporary, Call.InvalidateICache s.cpu.pc 4 true, Call.StepOpcode,
          Call.Sleep 20] ∧
      singleSteps (newCalls s (SingleStep c s)) = 0 ∧
      (newCalls s (SingleStep c s)).count Call.StepOpcode = 1 ∧
      temporaryAddresses (PowerPC.breakpoints.ClearAllTemporary s).cpu.breakpoints = [] ∧
      (SingleStep c s).cpu = c.SingleStep (PowerPC.breakpoints.ClearAllTemporary s).cpu := by
  obtain ⟨hcpu, htrace, -⟩ := SingleStep_fields c s h
  have htr : newCalls s (SingleStep c s) =
      [Call.ClearAllTemporary, Call.InvalidateICache s.cpu.pc 4 true, Call.StepOpcode,
        Call.Sleep 20] ++
        refreshCalls (c.SingleStep (PowerPC.breakpoints.ClearAllTemporary s).cpu).pc
          s.codeview := by
    rw [newCalls, htrace, List.drop_left]
  have hop : ∀ pc cv, (refreshCalls pc cv).count Call.StepOpcode = 0 := by
    intro pc cv
    rw [List.count_eq_zero]
    intro he
    have := (refreshCalls_not_core pc cv _ he).1
    simp [Call.isCoreEffect] at this
  refine ⟨?_, ?_, ?_, ?_, ?_, hcpu⟩
  · rw [htr, List.filter_append, refreshCalls_filter]
    simp [Call.isCoreEffect]
  · rw [htr]
    simp
  · have := refreshCalls_singleSteps
      (c.SingleStep (PowerPC.breakpoints.ClearAllTemporary s).cpu).pc s.codeview
    rw [singleSteps] at this
    rw [htr, singleSteps, List.countP_append, this]
    simp [Call.isSingleStep]
  · rw [htr, List.count_append, hop]
    simp
  · simp [temporaryAddresses, PowerPC.breakpoints.ClearAllTemporary, List.filter_filter]

theorem SingleStep_effects_witness :
    CCPU.IsStepping (toyState 0x1004 0) = true ∧
      (SingleStep (toyCore toyMemory 3) (toyState 0x1004 0)).cpu.pc = 0x1008 := by
  have h := SingleStep_effects (toyCore toyMemory 3) (toyState 0x1004 0) rfl
  refine ⟨rfl, ?_⟩
  rw [h.2.2.2.2.2]
  simp [toyCore, toyState, toyStep, toyMemory, PowerPC.breakpoints.ClearAllTemporary]

/-- The state `StepOver` returns on a call, field by field. -/
theorem StepOver_onCall_fields (c : Core σ) (s : Debugger σ) (h : CCPU.IsStepping s = true)
    (hLK : c.LK (c.HostRead_Instruction s.cpu s.cpu.pc) = true) :
    (StepOver c s).cpu =
        { s.cpu with
          breakpoints := s.cpu.breakpoints.filter (fun b => !b.bTemporary) ++
            [{ iAddress := (s.cpu.pc + 4) % 2 ^ 32, bTemporary := true }]
          stepping := false } ∧
      (StepOver c s).trace = s.trace ++
        ([Call.HostRead_Instruction s.cpu.pc (c.HostRead_Instruction s.cpu s.cpu.pc),
          Call.ClearAllTemporary, Call.Add ((s.cpu.pc + 4) % 2 ^ 32) true,
          Call.EnableStepping false] ++
          (refreshCalls s.cpu.pc s.codeview ++ [Call.UpdateButtonStates, Call.UpdateGUI])) := by
  simp only [StepOver, h, if_true, PowerPC.HostRead_Instruction, hLK]
  refine ⟨?_, ?_⟩
  · simp [UpdateGUI, UpdateButtonStates, CCPU.EnableStepping, PowerPC.breakpoints.Add,
      PowerPC.breakpoints.ClearAllTemporary]
  · simp only [UpdateGUI, UpdateButtonStates, record_trace]
    rw [refresh_trace]
    simp [CCPU.EnableStepping, PowerPC.breakpoints.Add, PowerPC.breakpoints.ClearAllTemporary]

/-- C4: in the stepping state, when the instruction at `PC` has the link bit
set, `StepOver` executes no instruction (no `StepOpcode`, no `SingleStep`; its
calls on the core are exactly `ClearAllTemporary`, `Add(PC + 4, true)`,
`EnableStepping(false)`), leaves `PC` and the registers unchanged, leaves
exactly one temporary breakpoint, at `PC + 4` modulo `2 ^ 32`, whatever
temporary breakpoints existed before, and leaves stepping disabled. -/
theorem StepOver_call (c : Core σ) (s : Debugger σ) (h : CCPU.IsStepping s = true)
    (hLK : c.LK (c.HostRead_Instruction s.cpu s.cpu.pc) = true) :
    (StepOver c s).cpu.pc = s.cpu.pc ∧
      (StepOver c s).cpu.regs = s.cpu.regs ∧
      (newCalls s (StepOver c s)).filter Call.isCoreEffect =
        [Call.ClearAllTemporary, Call.Add ((s.cpu.pc + 4) % 2 ^ 32) true,
          Call.EnableStepping false] ∧
      temporaryAddresses (StepOver c s).cpu.breakpoints = [(s.cpu.pc + 4) % 2 ^ 32] ∧
      CCPU.IsStepping (StepOver c s) = false := by
  obtain ⟨hcpu, htrace⟩ := StepOver_onCall_fields c s h hLK
  refine ⟨?_, ?_, ?_, ?_, ?_⟩
  · rw [hcpu]
  · rw [hcpu]
  · rw [newCalls, htrace, List.drop_left, List.filter_append, List.filter_append,
      refreshCalls_filter]
    simp [Call.isCoreEffect]
  · rw [hcpu]
    simp [temporaryAddresses, List.filter_append, List.filter_filter]
  · rw [CCPU.IsStepping, hcpu]

theorem StepOver_call_witness :
    CCPU.IsStepping toyStateWithBreakpoints = true ∧
      (toyCore toyMemory 3).LK
        ((toyCore toyMemory 3).HostRead_Instruction toyStateWithBreakpoints.cpu 0x1000)
        = true ∧
      (StepOver (toyCore toyMemory 3) toyStateWithBreakpoints).cpu.pc = 0x1000 ∧
      temporaryAddresses (StepOver (toyCore toyMemory 3) toyStateWithBreakpoints).cpu.breakpoints
        = [0x1004] ∧
      CCPU.IsStepping (StepOver (toyCore toyMemory 3) toyStateWithBreakpoints) = false := by
  have h := StepOver_call (toyCore toyMemory 3) toyStateWithBreakpoints rfl (by decide)
  exact ⟨rfl, by decide, h.1, h.2.2.2.1, h.2.2.2.2⟩

/-- C5: in the stepping state, when the instruction at `PC` does not have the
link bit set, `StepOver` ends in the same core state (PC, registers, mode,
breakpoints, stepping flag) and the same view as `SingleStep` (StepInto) from
the same state, and makes the same calls on the core, instruction-cache
invalidation included, in the same order. -/
theorem StepOver_non_call (c : Core σ) (s : Debugger σ) (h : CCPU.IsStepping s = true)
    (hLK : c.LK (c.HostRead_Instruction s.cpu s.cpu.pc) = false) :
    (StepOver c s).cpu = (SingleStep c s).cpu ∧
      (StepOver c s).codeview = (SingleStep c s).codeview ∧
      (newCalls s (StepOver c s)).filter Call.isCoreEffect =
        (newCalls s (SingleStep c s)).filter Call.isCoreEffect ∧
      newCalls s (StepOver c s) =
        Call.HostRead_Instruction s.cpu.pc (c.HostRead_Instruction s.cpu s.cpu.pc) ::
          (newCalls s (SingleStep c s) ++ [Call.UpdateButtonStates, Call.UpdateGUI]) := by
  have hr : CCPU.IsStepping
      (record (Call.HostRead_Instruction s.cpu.pc (c.HostRead_Instruction s.cpu s.cpu.pc)) s)
        = true := h
  obtain ⟨hcpu, htrace, hcv⟩ := SingleStep_fields c s h
  obtain ⟨hcpu', htrace', hcv'⟩ := SingleStep_fields c _ hr
  have hover : StepOver c s = UpdateGUI (UpdateButtonStates (SingleStep c
      (record (Call.HostRead_Instruction s.cpu.pc (c.HostRead_Instruction s.cpu s.cpu.pc))
        s))) := by
    simp [StepOver, h, PowerPC.HostRead_Instruction, hLK]
  have hclear : (PowerPC.breakpoints.ClearAllTemporary
      (record (Call.HostRead_Instruction s.cpu.pc (c.HostRead_Instruction s.cpu s.cpu.pc))
        s)).cpu = (PowerPC.breakpoints.ClearAllTemporary s).cpu := rfl
  have hnew : newCalls s (StepOver c s) =
      Call.HostRead_Instruction s.cpu.pc (c.HostRead_Instruction s.cpu s.cpu.pc) ::
        (newCalls s (SingleStep c s) ++ [Call.UpdateButtonStates, Call.UpdateGUI]) := by
    rw [newCalls, newCalls, htrace, List.drop_left, hover]
    simp only [UpdateGUI, UpdateButtonStates, record_trace]
    rw [htrace', hclear]
    simp
  refine ⟨?_, ?_, ?_, hnew⟩
  · rw [hover, hcpu]
    simp only [UpdateGUI_cpu, UpdateButtonStates_cpu]
    rw [hcpu', hclear]
  · rw [hover, hcv]
    simp only [UpdateGUI, UpdateButtonStates, record_codeview]
    rw [hcv', hclear]
    rfl
  · rw [hnew]
    simp [List.filter_cons, Call.isCoreEffect]

theorem StepOver_non_call_witness :
    CCPU.IsStepping (toyState 0x1004 0) = true ∧
      (toyCore toyMemory 3).LK
        ((toyCore toyMemory 3).HostRead_Instruction (toyState 0x1004 0).cpu 0x1004) = false ∧
      (StepOver (toyCore toyMemory 3) (toyState 0x1004 0)).cpu =
        (SingleStep (toyCore toyMemory 3) (toyState 0x1004 0)).cpu := by
  have h := StepOver_non_call (toyCore toyMemory 3) (toyState 0x1004 0) rfl (by decide)
  exact ⟨rfl, by decide, h.1⟩

/-! ## The loops of StepOut -/

@[simp] theorem PowerPC_SingleStep_cpu (c : Core σ) (s : Debugger σ) :
    (PowerPC.SingleStep c s).cpu = c.SingleStep s.cpu := rfl

@[simp] theorem PowerPC_SingleStep_codeview (c : Core σ) (s : Debugger σ) :
    (PowerPC.SingleStep c s).codeview = s.codeview := rfl

@[simp] theorem PowerPC_SingleStep_trace (c : Core σ) (s : Debugger σ) :
    (PowerPC.SingleStep c s).trace =
      s.trace ++ [Call.SingleStep s.cpu.pc (c.HostRead_Instruction s.cpu s.cpu.pc)] := rfl

/-- The inner loop only issues single steps, one per increment of `steps`, each
at a `PC` different from `next_pc`. -/
theorem stepOutInner_trace (c : Core σ) (timeout next_pc : Nat) (s : Debugger σ) (steps : Nat) :
    ∃ l, (stepOutInner c timeout next_pc s steps).1.trace = s.trace ++ l ∧
      l.length = (stepOutInner c timeout next_pc s steps).2 - steps ∧
      ∀ e ∈ l, ∃ p w, e = Call.SingleStep p w ∧ p ≠ next_pc := by
  induction s, steps using stepOutInner.induct c timeout next_pc with
  | case1 s steps h ih =>
    obtain ⟨l, h1, h2, h3⟩ := ih
    have hb := (stepOutInner_steps_bounds c timeout next_pc (PowerPC.SingleStep c s)
      (steps + 1)).1
    rw [stepOutInner, if_pos h]
    refine ⟨Call.SingleStep s.cpu.pc (c.HostRead_Instruction s.cpu s.cpu.pc) :: l, ?_, ?_, ?_⟩
    · rw [h1]; simp
    · simp only [List.length_cons, h2]; omega
    · intro e he
      rcases List.mem_cons.1 he with rfl | he
      · exact ⟨_, _, rfl, h.1⟩
      · exact h3 e he
  | case2 s steps h =>
    rw [stepOutInner, if_neg h]
    exact ⟨[], by simp, by simp, by simp⟩

/-- The inner loop stops with `PC = next_pc` or with the budget used up. -/
theorem stepOutInner_exit (c : Core σ) (timeout next_pc : Nat) (s : Debugger σ) (steps : Nat) :
    (stepOutInner c timeout next_pc s steps).1.cpu.pc = next_pc ∨
      ¬ (stepOutInner c timeout next_pc s steps).2 < timeout := by
  induction s, steps using stepOutInner.induct c timeout next_pc with
  | case1 s steps h ih =>
    rw [stepOutInner, if_pos h]
    exact ih
  | case2 s steps h =>
    rw [stepOutInner, if_neg h]
    by_cases hpc : s.cpu.pc = next_pc
    · exact Or.inl hpc
    · exact Or.inr (fun hlt => h ⟨hpc, hlt⟩)

theorem stepOutInner_codeview (c : Core σ) (timeout next_pc : Nat) (s : Debugger σ)
    (steps : Nat) :
    (stepOutInner c timeout next_pc s steps).1.codeview = s.codeview := by
  induction s, steps using stepOutInner.induct c timeout next_pc with
  | case1 s steps h ih =>
    rw [stepOutInner, if_pos h, ih]
    rfl
  | case2 s steps h =>
    rw [stepOutInner, if_neg h]

/-- A property of the core that the single-step primitive preserves is
preserved by the inner loop. -/
theorem stepOutInner_preserves (c : Core σ) (P : Machine σ → Prop)
    (hP : ∀ m, P m → P (c.SingleStep m)) (timeout next_pc : Nat) (s : Debugger σ)
    (steps : Nat) (hs : P s.cpu) :
    P (stepOutInner c timeout next_pc s steps).1.cpu := by
  induction s, steps using stepOutInner.induct c timeout next_pc with
  | case1 s steps h ih =>
    rw [stepOutInner, if_pos h]
    exact ih (hP _ hs)
  | case2 s steps h =>
    rw [stepOutInner, if_neg h]
    exact hs

/-- One iteration of the outer loop only issues single steps, one per increment
of `steps`. -/
theorem stepOutBody_trace (c : Core σ) (timeout inst : Nat) (s : Debugger σ) (steps : Nat) :
    ∃ l, (stepOutBody c timeout inst s steps).1.trace = s.trace ++ l ∧
      l.length = (stepOutBody c timeout inst s steps).2 - steps ∧
      ∀ e ∈ l, e.isSingleStep = true := by
  unfold stepOutBody
  split
  · obtain ⟨l, h1, h2, h3⟩ := stepOutInner_trace c timeout ((s.cpu.pc + 4) % 2 ^ 32) s steps
    refine ⟨l, h1, h2, ?_⟩
    intro e he
    obtain ⟨p, w, rfl, -⟩ := h3 e he
    rfl
  · exact ⟨[Call.SingleStep s.cpu.pc (c.HostRead_Instruction s.cpu s.cpu.pc)], rfl, by simp,
      by simp [Call.isSingleStep]⟩

theorem stepOutBody_codeview (c : Core σ) (timeout inst : Nat) (s : Debugger σ) (steps : Nat) :
    (stepOutBody c timeout inst s steps).1.codeview = s.codeview := by
  unfold stepOutBody
  split
  · exact stepOutInner_codeview c timeout _ s steps
  · rfl

theorem stepOutBody_preserves (c : Core σ) (P : Machine σ → Prop)
    (hP : ∀ m, P m → P (c.SingleStep m)) (timeout inst : Nat) (s : Debugger σ)
    (steps : Nat) (hs : P s.cpu) :
    P (stepOutBody c timeout inst s steps).1.cpu := by
  unfold stepOutBody
  split
  · exact stepOutInner_preserves c P hP timeout _ s steps hs
  · exact hP _ hs

theorem singleSteps_of_all (l : List Call) (h : ∀ e ∈ l, e.isSingleStep = true) :
    singleSteps l = l.length := by
  rw [singleSteps, List.countP_eq_length]
  exact h

/-- The outer loop keeps `steps` within `timeout`. -/
theorem stepOutLoop_steps (c : Core σ) (timeout inst : Nat) (s : Debugger σ) (steps : Nat)
    (hle : steps ≤ timeout) :
    steps ≤ (stepOutLoop c timeout inst s steps).2 ∧
      (stepOutLoop c timeout inst s steps).2 ≤ timeout := by
  induction inst, s, steps using stepOutLoop.induct c timeout with
  | case1 inst s steps h r f ih =>
    have hb := stepOutBody_steps c timeout inst s steps h.2
    rw [stepOutLoop, if_pos h]
    have := ih hb.2
    simp only [r, f] at this ⊢
    omega
  | case2 inst s steps h =>
    rw [stepOutLoop, if_neg h]
    exact ⟨le_refl _, hle⟩

theorem stepOutLoop_codeview (c : Core σ) (timeout inst : Nat) (s : Debugger σ) (steps : Nat) :
    (stepOutLoop c timeout inst s steps).1.codeview = s.codeview := by
  induction inst, s, steps using stepOutLoop.induct c timeout with
  | case1 inst s steps h r f ih =>
    rw [stepOutLoop, if_pos h]
    simp only
    rw [ih]
    exact stepOutBody_codeview c timeout inst s steps
  | case2 inst s steps h =>
    rw [stepOutLoop, if_neg h]

theorem stepOutLoop_preserves (c : Core σ) (P : Machine σ → Prop)
    (hP : ∀ m, P m → P (c.SingleStep m)) (timeout inst : Nat) (s : Debugger σ)
    (steps : Nat) (hs : P s.cpu) :
    P (stepOutLoop c timeout inst s steps).1.cpu := by
  induction inst, s, steps using stepOutLoop.induct c timeout with
  | case1 inst s steps h r f ih =>
    rw [stepOutLoop, if_pos h]
    exact ih (stepOutBody_preserves c P hP timeout inst s steps hs)
  | case2 inst s steps h =>
    rw [stepOutLoop, if_neg h]
    exact hs

/-- The calls of the outer loop: single steps, as many as `steps` grew by, and
instruction reads.  Either the loop did not run, or its last call is the read
of the instruction at the `PC` of the state it stops in, and that instruction
is the return word unless the budget is used up. -/
theorem stepOutLoop_trace (c : Core σ) (timeout inst : Nat) (s : Debugger σ) (steps : Nat)
    (hle : steps ≤ timeout) :
    ∃ l, (stepOutLoop c timeout inst s steps).1.trace = s.trace ++ l ∧
      singleSteps l = (stepOutLoop c timeout inst s steps).2 - steps ∧
      (∀ e ∈ l, e.isSingleStep = true ∨ e.isHostRead = true) ∧
      ((l = [] ∧ stepOutLoop c timeout inst s steps = (s, steps) ∧
          ¬ (inst ≠ 0x4e800020 ∧ steps < timeout)) ∨
        (∃ k, l = k ++ [Call.HostRead_Instruction (stepOutLoop c timeout inst s steps).1.cpu.pc
            (c.HostRead_Instruction (stepOutLoop c timeout inst s steps).1.cpu
              (stepOutLoop c timeout inst s steps).1.cpu.pc)] ∧
          ¬ (c.HostRead_Instruction (stepOutLoop c timeout inst s steps).1.cpu
              (stepOutLoop c timeout inst s steps).1.cpu.pc ≠ 0x4e800020 ∧
            (stepOutLoop c timeout inst s steps).2 < timeout))) := by
  induction inst, s, steps using stepOutLoop.induct c timeout with
  | case1 inst s steps h r f ih =>
    have hb := stepOutBody_steps c timeout inst s steps h.2
    obtain ⟨lb, hb1, hb2, hb3⟩ := stepOutBody_trace c timeout inst s steps
    obtain ⟨l, h1, h2, h3, h4⟩ := ih hb.2
    have hs := stepOutLoop_steps c timeout f.1 f.2 r.2 hb.2
    have hlb := singleSteps_of_all lb hb3
    rw [stepOutLoop, if_pos h]
    simp only at h1 h2 h3 h4 hs ⊢
    refine ⟨lb ++ Call.HostRead_Instruction r.1.cpu.pc
      (c.HostRead_Instruction r.1.cpu r.1.cpu.pc) :: l, ?_, ?_, ?_, Or.inr ?_⟩
    · rw [h1]
      simp only [f, PowerPC.HostRead_Instruction, record_trace]
      rw [hb1]
      simp
    · rw [singleSteps] at hlb h2
      rw [singleSteps, List.countP_append, List.countP_cons, hlb, hb2, h2]
      simp only [r, f, Call.isSingleStep] at hs hb ⊢
      simp only [Bool.false_eq_true, if_false]
      omega
    · intro e he
      rcases List.mem_append.1 he with he | he
      · exact Or.inl (hb3 e he)
      · rcases List.mem_cons.1 he with rfl | he
        · exact Or.inr rfl
        · exact h3 e he
    · rcases h4 with ⟨rfl, heq, hcond⟩ | ⟨k, rfl, hcond⟩
      · refine ⟨lb, ?_, ?_⟩
        · rw [heq]; rfl
        · rw [heq]; exact hcond
      · refine ⟨lb ++ Call.HostRead_Instruction r.1.cpu.pc
          (c.HostRead_Instruction r.1.cpu r.1.cpu.pc) :: k, by simp, hcond⟩
  | case2 inst s steps h =>
    rw [stepOutLoop, if_neg h]
    exact ⟨[], by simp, by simp [singleSteps], by simp, Or.inl ⟨rfl, rfl, h⟩⟩

/-! ## StepOut -/

/-- In the stepping state `StepOut` is its loop followed by the final single
step, the restoring `SetMode(oldMode)` and the user-interface refresh. -/
theorem StepOut_eq (c : Core σ) (s : Debugger σ) (h : CCPU.IsStepping s = true) :
    StepOut c s =
      UpdateGUI (UpdateButtonStates (Update (JumpToAddress
        (PowerPC.SetMode s.cpu.mode (PowerPC.SingleStep c (stepOutExit c s).1)).cpu.pc
        (PowerPC.SetMode s.cpu.mode (PowerPC.SingleStep c (stepOutExit c s).1))).2)) := by
  simp only [StepOut, h, if_true]
  rfl

/-- The core state `StepOut` returns: the final single step taken from the
state the loop stopped in, with the mode set back. -/
theorem StepOut_cpu (c : Core σ) (s : Debugger σ) (h : CCPU.IsStepping s = true) :
    (StepOut c s).cpu = { c.SingleStep (stepOutExit c s).1.cpu with mode := s.cpu.mode } := by
  rw [StepOut_eq c s h]
  simp [PowerPC.SetMode]

/-- The calls of `StepOut`: the prologue, the calls of the loop, the final
single step, the restoring `SetMode`, and the refresh. -/
theorem StepOut_trace (c : Core σ) (s : Debugger σ) (h : CCPU.IsStepping s = true) :
    ∃ l, (stepOutExit c s).1.trace = s.trace ++
        ([Call.ClearAllTemporary, Call.GetMode, Call.SetMode CoreMode.MODE_INTERPRETER,
          Call.HostRead_Instruction s.cpu.pc (stepOutEntry c s).1] ++ l) ∧
      newCalls s (StepOut c s) =
        [Call.ClearAllTemporary, Call.GetMode, Call.SetMode CoreMode.MODE_INTERPRETER,
          Call.HostRead_Instruction s.cpu.pc (stepOutEntry c s).1] ++ l ++
        Call.SingleStep (stepOutExit c s).1.cpu.pc
          (c.HostRead_Instruction (stepOutExit c s).1.cpu (stepOutExit c s).1.cpu.pc) ::
        Call.SetMode s.cpu.mode ::
        (refreshCalls (c.SingleStep (stepOutExit c s).1.cpu).pc s.codeview ++
          [Call.UpdateButtonStates, Call.UpdateGUI]) ∧
      singleSteps l = (stepOutExit c s).2 ∧
      (stepOutExit c s).2 ≤ c.GetTicksPerSecond ∧
      (∀ e ∈ l, e.isSingleStep = true ∨ e.isHostRead = true) ∧
      ((l = [] ∧ stepOutExit c s = ((stepOutEntry c s).2, 0)) ∨
        ∃ k, l = k ++ [Call.HostRead_Instruction (stepOutExit c s).1.cpu.pc
          (c.HostRead_Instruction (stepOutExit c s).1.cpu (stepOutExit c s).1.cpu.pc)]) ∧
      ¬ (c.HostRead_Instruction (stepOutExit c s).1.cpu (stepOutExit c s).1.cpu.pc ≠ 0x4e800020 ∧
          (stepOutExit c s).2 < c.GetTicksPerSecond) := by
  obtain ⟨l, h1, h2, h3, h4⟩ := stepOutLoop_trace c c.GetTicksPerSecond (stepOutEntry c s).1
    (stepOutEntry c s).2 0 (Nat.zero_le _)
  have hb := (stepOutLoop_steps c c.GetTicksPerSecond (stepOutEntry c s).1
    (stepOutEntry c s).2 0 (Nat.zero_le _)).2
  have hentry : (stepOutEntry c s).2.trace = s.trace ++
      [Call.ClearAllTemporary, Call.GetMode, Call.SetMode CoreMode.MODE_INTERPRETER,
        Call.HostRead_Instruction s.cpu.pc (stepOutEntry c s).1] := by
    simp [stepOutEntry, PowerPC.HostRead_Instruction, PowerPC.SetMode, PowerPC.GetMode,
      PowerPC.breakpoints.ClearAllTemporary]
  have hcv : (stepOutExit c s).1.codeview = s.codeview := by
    rw [stepOutExit, stepOutLoop_codeview]
    rfl
  have hexit : (stepOutExit c s).1.trace = s.trace ++
      ([Call.ClearAllTemporary, Call.GetMode, Call.SetMode CoreMode.MODE_INTERPRETER,
        Call.HostRead_Instruction s.cpu.pc (stepOutEntry c s).1] ++ l) := by
    rw [stepOutExit, h1, hentry, List.append_assoc]
  have hread : (stepOutEntry c s).1 =
      c.HostRead_Instruction (stepOutEntry c s).2.cpu (stepOutEntry c s).2.cpu.pc := rfl
  refine ⟨l, hexit, ?_, ?_, hb, h3, ?_, ?_⟩
  · rw [newCalls, StepOut_eq c s h]
    simp only [UpdateGUI, UpdateButtonStates, record_trace]
    rw [refresh_trace]
    simp only [PowerPC.SetMode, record_trace, record_cpu, record_codeview,
      PowerPC_SingleStep_trace, PowerPC_SingleStep_cpu, PowerPC_SingleStep_codeview, hcv]
    rw [hexit]
    simp
  · rw [h2]; rfl
  · rcases h4 with ⟨hl, heq, -⟩ | ⟨k, hk, -⟩
    · exact Or.inl ⟨hl, heq⟩
    · exact Or.inr ⟨k, hk⟩
  · rcases h4 with ⟨-, heq, hcond⟩ | ⟨k, -, hcond⟩
    · have e1 : (stepOutExit c s).1 = (stepOutEntry c s).2 := by rw [stepOutExit, heq]
      have e2 : (stepOutExit c s).2 = 0 := by rw [stepOutExit, heq]
      rw [e1, e2, ← hread]
      exact hcond
    · exact hcond

/-- C2: the Execution Mode after `StepOut` returns equals the Execution Mode
before the call, for every core, every instruction memory, every step budget
and every state: `SetMode(oldMode)` follows the final single step on the one
path out of the loop, whether the loop ended on the return word or on the
budget, and whatever the single-step primitive does to the mode. -/
theorem StepOut_restores_mode (c : Core σ) (s : Debugger σ) :
    (StepOut c s).cpu.mode = s.cpu.mode := by
  by_cases h : CCPU.IsStepping s = true
  · rw [StepOut_cpu c s h]
  · simp [StepOut, h]

/-- The number of single steps of a run of `StepOut`: those of the loop, which
are counted by `steps`, and the final one. -/
theorem StepOut_singleSteps (c : Core σ) (s : Debugger σ) (h : CCPU.IsStepping s = true) :
    singleSteps (newCalls s (StepOut c s)) = (stepOutExit c s).2 + 1 := by
  obtain ⟨l, -, hnew, hsteps, -, -, -, -⟩ := StepOut_trace c s h
  have hr := refreshCalls_singleSteps (c.SingleStep (stepOutExit c s).1.cpu).pc s.codeview
  rw [singleSteps] at hr hsteps
  rw [hnew, singleSteps]
  simp only [List.countP_append, List.countP_cons, List.countP_nil, hr, hsteps,
    Call.isSingleStep]
  simp

/-- C9: `StepOut` is a total function of the core, the state and the budget
`T = GetTicksPerSecond()` (its loops are defined by recursion on `T - steps`),
and in the stepping state: `PC + 4` modulo `2 ^ 32` differs from `PC`; every
iteration of the outer loop entered with `steps < T` performs at least one
single step, as many as it adds to `steps`, and leaves `steps ≤ T`; the counter
is at most `T` when the loop is left; and the run performs at least 1 and at
most `T + 1` single steps. -/
theorem StepOut_terminates_within_budget (c : Core σ) (s : Debugger σ)
    (h : CCPU.IsStepping s = true) :
    (∀ m : Machine σ, m.pc ≠ (m.pc + 4) % 2 ^ 32) ∧
      (∀ (inst : Nat) (t : Debugger σ) (steps : Nat), steps < c.GetTicksPerSecond →
        steps < (stepOutBody c c.GetTicksPerSecond inst t steps).2 ∧
        (stepOutBody c c.GetTicksPerSecond inst t steps).2 ≤ c.GetTicksPerSecond ∧
        singleSteps (newCalls t (stepOutBody c c.GetTicksPerSecond inst t steps).1) =
          (stepOutBody c c.GetTicksPerSecond inst t steps).2 - steps) ∧
      (stepOutExit c s).2 ≤ c.GetTicksPerSecond ∧
      singleSteps (newCalls s (StepOut c s)) = (stepOutExit c s).2 + 1 ∧
      1 ≤ singleSteps (newCalls s (StepOut c s)) ∧
      singleSteps (newCalls s (StepOut c s)) ≤ c.GetTicksPerSecond + 1 := by
  have hb := (stepOutLoop_steps c c.GetTicksPerSecond (stepOutEntry c s).1
    (stepOutEntry c s).2 0 (Nat.zero_le _)).2
  have hn := StepOut_singleSteps c s h
  refine ⟨fun m => by omega, ?_, hb, hn, ?_, ?_⟩
  · intro inst t steps hlt
    obtain ⟨l, h1, h2, h3⟩ := stepOutBody_trace c c.GetTicksPerSecond inst t steps
    have hs := stepOutBody_steps c c.GetTicksPerSecond inst t steps hlt
    refine ⟨hs.1, hs.2, ?_⟩
    rw [newCalls, h1, List.drop_left, singleSteps_of_all l h3, h2]
  · omega
  · rw [hn]
    have : (stepOutExit c s).2 ≤ c.GetTicksPerSecond := hb
    omega

theorem StepOut_terminates_within_budget_witness :
    CCPU.IsStepping (toyState 0x1000 0) = true ∧
      1 ≤ singleSteps (newCalls (toyState 0x1000 0)
        (StepOut (toyCore toyMemoryNoReturn 0) (toyState 0x1000 0))) ∧
      singleSteps (newCalls (toyState 0x1000 0)
        (StepOut (toyCore toyMemoryNoReturn 0) (toyState 0x1000 0))) ≤ 0 + 1 := by
  have h := StepOut_terminates_within_budget (toyCore toyMemoryNoReturn 0)
    (toyState 0x1000 0) rfl
  exact ⟨rfl, h.2.2.2.2.1, h.2.2.2.2.2⟩

/-- C3 (amended): in the stepping state, when no instruction word read during
`StepOut` is the return word `0x4e800020`, `StepOut` performs exactly
`GetTicksPerSecond() + 1` single steps, `GetTicksPerSecond()` inside the loop
and the final one after it, and returns with the Execution Mode restored. -/
theorem StepOut_budget_exhausted (c : Core σ) (s : Debugger σ) (h : CCPU.IsStepping s = true)
    (hno : ∀ a w, Call.HostRead_Instruction a w ∈ newCalls s (StepOut c s) → w ≠ 0x4e800020) :
    (stepOutExit c s).2 = c.GetTicksPerSecond ∧
      singleSteps (newCalls s (StepOut c s)) = c.GetTicksPerSecond + 1 ∧
      (StepOut c s).cpu.mode = s.cpu.mode := by
  obtain ⟨l, -, hnew, -, hb, -, hlast, hcond⟩ := StepOut_trace c s h
  have hword : c.HostRead_Instruction (stepOutExit c s).1.cpu (stepOutExit c s).1.cpu.pc
      ≠ 0x4e800020 := by
    rcases hlast with ⟨-, heq⟩ | ⟨k, hk⟩
    · have e1 : (stepOutExit c s).1 = (stepOutEntry c s).2 := by rw [heq]
      rw [e1]
      apply hno s.cpu.pc
      rw [hnew]
      simp [stepOutEntry, PowerPC.HostRead_Instruction, PowerPC.SetMode, PowerPC.GetMode,
        PowerPC.breakpoints.ClearAllTemporary]
    · apply hno (stepOutExit c s).1.cpu.pc
      rw [hnew, hk]
      simp
  have hT : (stepOutExit c s).2 = c.GetTicksPerSecond := by
    have : ¬ (stepOutExit c s).2 < c.GetTicksPerSecond := fun hlt => hcond ⟨hword, hlt⟩
    omega
  refine ⟨hT, ?_, ?_⟩
  · rw [StepOut_singleSteps c s h, hT]
  · rw [StepOut_cpu c s h]

/-- The run of `StepOut` on the example memory without a return, from `0x1004`
with a budget of 3. -/
theorem toy_noReturn_run :
    (StepOut (toyCore toyMemoryNoReturn 3) (toyState 0x1004 0)).trace =
      [Call.ClearAllTemporary, Call.GetMode, Call.SetMode CoreMode.MODE_INTERPRETER,
        Call.HostRead_Instruction 0x1004 0x60000000, Call.SingleStep 0x1004 0x60000000,
        Call.HostRead_Instruction 0x1008 0x60000000, Call.SingleStep 0x1008 0x60000000,
        Call.HostRead_Instruction 0x100C 0x60000000, Call.SingleStep 0x100C 0x60000000,
        Call.HostRead_Instruction 0x1010 0x60000000, Call.SingleStep 0x1010 0x60000000,
        Call.SetMode CoreMode.MODE_JIT, Call.Center 0x1014, Call.UpdateLists, Call.Refresh,
        Call.UpdateCallstack, Call.UpdateButtonStates, Call.UpdateButtonStates,
        Call.UpdateGUI] := by
  simp [StepOut, stepOutLoop, stepOutBody, stepOutInner, toyCore, toyState,
    toyMemoryNoReturn, toyStep, PowerPC.SingleStep, PowerPC.HostRead_Instruction,
    PowerPC.GetMode, PowerPC.SetMode, PowerPC.breakpoints.ClearAllTemporary, record,
    CCPU.IsStepping, JumpToAddress, Update, UpdateGUI, UpdateButtonStates, UpdateCallstack,
    UpdateLists, CCodeView.Center]

/-- The run of `StepOut` on the example memory without a return, from the call
at `0x1000` with a budget of 2. -/
theorem toy_nested_run :
    (StepOut (toyCore toyMemoryNoReturn 2) (toyState 0x1000 0)).trace =
      [Call.ClearAllTemporary, Call.GetMode, Call.SetMode CoreMode.MODE_INTERPRETER,
        Call.HostRead_Instruction 0x1000 0x48001001, Call.SingleStep 0x1000 0x48001001,
        Call.SingleStep 0x2000 0x60000000,
        Call.HostRead_Instruction 0x2004 0x60000000, Call.SingleStep 0x2004 0x60000000,
        Call.SetMode CoreMode.MODE_JIT, Call.Center 0x2008, Call.UpdateLists, Call.Refresh,
        Call.UpdateCallstack, Call.UpdateButtonStates, Call.UpdateButtonStates,
        Call.UpdateGUI] ∧
      (StepOut (toyCore toyMemoryNoReturn 2) (toyState 0x1000 0)).cpu.pc = 0x2008 ∧
      (StepOut (toyCore toyMemoryNoReturn 2) (toyState 0x1000 0)).cpu.regs.lr = 0x1004 := by
  simp [StepOut, stepOutLoop, stepOutBody, stepOutInner, toyCore, toyState,
    toyMemoryNoReturn, toyStep, PowerPC.SingleStep, PowerPC.HostRead_Instruction,
    PowerPC.GetMode, PowerPC.SetMode, PowerPC.breakpoints.ClearAllTemporary, record,
    CCPU.IsStepping, JumpToAddress, Update, UpdateGUI, UpdateButtonStates, UpdateCallstack,
    UpdateLists, CCodeView.Center]

/-- C3 (as stated, refuted): on the example memory without a return, from
`0x1004` with `GetTicksPerSecond() = 3`, no word read is the return word and
`StepOut` performs 4 single steps, not 3. -/
theorem StepOut_budget_exhausted_counterexample :
    CCPU.IsStepping (toyState 0x1004 0) = true ∧
      (∀ a w, Call.HostRead_Instruction a w ∈
        newCalls (toyState 0x1004 0)
          (StepOut (toyCore toyMemoryNoReturn 3) (toyState 0x1004 0)) → w ≠ 0x4e800020) ∧
      (toyCore toyMemoryNoReturn 3).GetTicksPerSecond = 3 ∧
      singleSteps (newCalls (toyState 0x1004 0)
        (StepOut (toyCore toyMemoryNoReturn 3) (toyState 0x1004 0))) = 4 := by
  refine ⟨rfl, ?_, rfl, ?_⟩
  · intro a w
    rw [newCalls, toy_noReturn_run]
    simp [toyState]
    omega
  · rw [newCalls, toy_noReturn_run]
    simp [toyState, singleSteps, Call.isSingleStep]

theorem StepOut_budget_exhausted_witness :
    CCPU.IsStepping (toyState 0x1004 0) = true ∧
      (∀ a w, Call.HostRead_Instruction a w ∈
        newCalls (toyState 0x1004 0)
          (StepOut (toyCore toyMemoryNoReturn 3) (toyState 0x1004 0)) → w ≠ 0x4e800020) ∧
      singleSteps (newCalls (toyState 0x1004 0)
        (StepOut (toyCore toyMemoryNoReturn 3) (toyState 0x1004 0))) = 3 + 1 ∧
      (StepOut (toyCore toyMemoryNoReturn 3) (toyState 0x1004 0)).cpu.mode
        = CoreMode.MODE_JIT := by
  have hno : ∀ a w, Call.HostRead_Instruction a w ∈
      newCalls (toyState 0x1004 0)
        (StepOut (toyCore toyMemoryNoReturn 3) (toyState 0x1004 0)) → w ≠ 0x4e800020 := by
    intro a w
    rw [newCalls, toy_noReturn_run]
    simp [toyState]
    omega
  have h := StepOut_budget_exhausted (toyCore toyMemoryNoReturn 3) (toyState 0x1004 0) rfl hno
  exact ⟨rfl, hno, h.2.1, h.2.2⟩

/-- C7: in the stepping state, when the loop of `StepOut` stops at a `PC`
whose instruction is the return word `0x4e800020`, the last single step of the
run is the one issued at that `PC`, on that word: no single step and no
`StepOpcode` request follows it, and the core state returned is that single
step of the state the loop stopped in, with the mode set back.  In particular,
when the first word `StepOut` reads is the return word, the run performs
exactly one single step, taken from the state in which the loop was entered. -/
theorem StepOut_return_is_last_step (c : Core σ) (s : Debugger σ)
    (h : CCPU.IsStepping s = true)
    (hret : c.HostRead_Instruction (stepOutExit c s).1.cpu (stepOutExit c s).1.cpu.pc
      = 0x4e800020) :
    (∃ pre post, newCalls s (StepOut c s) =
        pre ++ Call.SingleStep (stepOutExit c s).1.cpu.pc 0x4e800020 :: post ∧
        singleSteps post = 0 ∧ post.count Call.StepOpcode = 0) ∧
      (StepOut c s).cpu = { c.SingleStep (stepOutExit c s).1.cpu with mode := s.cpu.mode } ∧
      ((stepOutEntry c s).1 = 0x4e800020 →
        singleSteps (newCalls s (StepOut c s)) = 1 ∧
        (StepOut c s).cpu =
          { c.SingleStep (stepOutEntry c s).2.cpu with mode := s.cpu.mode }) := by
  obtain ⟨l, -, hnew, -, -, -, -, -⟩ := StepOut_trace c s h
  refine ⟨⟨[Call.ClearAllTemporary, Call.GetMode, Call.SetMode CoreMode.MODE_INTERPRETER,
      Call.HostRead_Instruction s.cpu.pc (stepOutEntry c s).1] ++ l,
    Call.SetMode s.cpu.mode ::
      (refreshCalls (c.SingleStep (stepOutExit c s).1.cpu).pc s.codeview ++
        [Call.UpdateButtonStates, Call.UpdateGUI]), ?_, ?_, ?_⟩, StepOut_cpu c s h, ?_⟩
  · rw [hnew, hret]
  · have hr := refreshCalls_singleSteps (c.SingleStep (stepOutExit c s).1.cpu).pc s.codeview
    rw [singleSteps] at hr ⊢
    simp only [List.countP_append, List.countP_cons, List.countP_nil, hr, Call.isSingleStep]
    simp
  · rw [List.count_eq_zero]
    intro hmem
    rcases List.mem_cons.1 hmem with hmem | hmem
    · cases hmem
    · rcases List.mem_append.1 hmem with hmem | hmem
      · have := (refreshCalls_not_core _ _ _ hmem).1
        simp [Call.isCoreEffect] at this
      · simp at hmem
  · intro hfirst
    have hexit : stepOutExit c s = ((stepOutEntry c s).2, 0) := by
      rw [stepOutExit, stepOutLoop, if_neg]
      exact fun hc => hc.1 hfirst
    refine ⟨?_, ?_⟩
    · rw [StepOut_singleSteps c s h, hexit]
    · rw [StepOut_cpu c s h, hexit]

theorem StepOut_return_is_last_step_witness :
    CCPU.IsStepping (toyState 0x2000 0x1004) = true ∧
      (toyCore toyMemory 3).HostRead_Instruction
        (stepOutExit (toyCore toyMemory 3) (toyState 0x2000 0x1004)).1.cpu
        (stepOutExit (toyCore toyMemory 3) (toyState 0x2000 0x1004)).1.cpu.pc = 0x4e800020 ∧
      singleSteps (newCalls (toyState 0x2000 0x1004)
        (StepOut (toyCore toyMemory 3) (toyState 0x2000 0x1004))) = 1 ∧
      (StepOut (toyCore toyMemory 3) (toyState 0x2000 0x1004)).cpu.pc = 0x1004 := by
  have hret : (toyCore toyMemory 3).HostRead_Instruction
      (stepOutExit (toyCore toyMemory 3) (toyState 0x2000 0x1004)).1.cpu
      (stepOutExit (toyCore toyMemory 3) (toyState 0x2000 0x1004)).1.cpu.pc = 0x4e800020 := by
    simp [stepOutExit, stepOutEntry, stepOutLoop, toyCore, toyState, toyMemory,
      PowerPC.HostRead_Instruction, PowerPC.GetMode, PowerPC.SetMode,
      PowerPC.breakpoints.ClearAllTemporary, record]
  have h := StepOut_return_is_last_step (toyCore toyMemory 3) (toyState 0x2000 0x1004) rfl hret
  have hfirst : (stepOutEntry (toyCore toyMemory 3) (toyState 0x2000 0x1004)).1
      = 0x4e800020 := by decide
  refine ⟨rfl, hret, (h.2.2 hfirst).1, ?_⟩
  rw [(h.2.2 hfirst).2]
  decide

/-! ### Nested calls in a run of StepOut -/

/-- Splitting a concatenation at an element that is not in its first part. -/
theorem split_after_left {α : Type} (e : α) (X Y pre rest : List α)
    (h : X ++ Y = pre ++ e :: rest) (hX : e ∉ X) :
    ∃ t, pre = X ++ t ∧ Y = t ++ e :: rest := by
  induction X generalizing pre with
  | nil => exact ⟨pre, rfl, h⟩
  | cons x X ih =>
    cases pre with
    | nil =>
      simp only [List.cons_append, List.nil_append, List.cons.injEq] at h
      exact absurd (h.1 ▸ List.mem_cons_self x X) hX
    | cons y pre =>
      simp only [List.cons_append, List.cons.injEq] at h
      obtain ⟨t, h1, h2⟩ := ih pre h.2 (fun hm => hX (List.mem_cons_of_mem _ hm))
      exact ⟨t, by rw [h.1, h1]; rfl, h2⟩

/-- Splitting a concatenation at an element that is not in its second part. -/
theorem split_before_right {α : Type} (e : α) (X Y pre rest : List α)
    (h : X ++ Y = pre ++ e :: rest) (hY : e ∉ Y) :
    ∃ t, X = pre ++ e :: t ∧ rest = t ++ Y := by
  induction pre generalizing X with
  | nil =>
    cases X with
    | nil =>
      simp only [List.nil_append] at h
      exact absurd (h ▸ List.mem_cons_self e rest) hY
    | cons x X =>
      simp only [List.cons_append, List.nil_append, List.cons.injEq] at h
      exact ⟨X, by rw [h.1]; rfl, h.2.symm⟩
  | cons y pre ih =>
    cases X with
    | nil =>
      simp only [List.nil_append, List.cons_append] at h
      exact absurd (h ▸ List.mem_cons_of_mem _ (List.mem_append_right _
        (List.mem_cons_self e rest))) hY
    | cons x X =>
      simp only [List.cons_append, List.cons.injEq] at h
      obtain ⟨t, h1, h2⟩ := ih X h.2
      exact ⟨t, by rw [h.1, h1]; rfl, h2⟩

/-- The calls of one iteration of the outer loop, entered with budget left: a
non-empty block of single steps, as many as `steps` grows by; with the link bit
set each is issued at a `PC` different from `PC + 4`, and the block ends with
`PC` at that address or with the budget used up; with the link bit clear the
block is one single step. -/
theorem stepOutBody_calls (c : Core σ) (timeout inst : Nat) (s : Debugger σ) (steps : Nat)
    (hlt : steps < timeout) :
    ∃ k, (stepOutBody c timeout inst s steps).1.trace = s.trace ++ k ∧ k ≠ [] ∧
      steps + k.length = (stepOutBody c timeout inst s steps).2 ∧
      (∀ e ∈ k, ∃ p x, e = Call.SingleStep p x ∧
        (c.LK inst = true → p ≠ (s.cpu.pc + 4) % 2 ^ 32)) ∧
      (c.LK inst = true →
        (stepOutBody c timeout inst s steps).1.cpu.pc = (s.cpu.pc + 4) % 2 ^ 32 ∨
          (stepOutBody c timeout inst s steps).2 = timeout) ∧
      (c.LK inst = false → k.length = 1) := by
  have hs := stepOutBody_steps c timeout inst s steps hlt
  cases hLK : c.LK inst
  · have hbody : stepOutBody c timeout inst s steps = (PowerPC.SingleStep c s, steps + 1) := by
      simp [stepOutBody, hLK]
    rw [hbody]
    exact ⟨[Call.SingleStep s.cpu.pc (c.HostRead_Instruction s.cpu s.cpu.pc)], rfl, by simp,
      rfl, by simp, by simp, by simp⟩
  · have hbody : stepOutBody c timeout inst s steps =
        stepOutInner c timeout ((s.cpu.pc + 4) % 2 ^ 32) s steps := by
      simp [stepOutBody, hLK]
    obtain ⟨k, h1, h2, h3⟩ := stepOutInner_trace c timeout ((s.cpu.pc + 4) % 2 ^ 32) s steps
    rw [hbody] at hs ⊢
    refine ⟨k, h1, ?_, by omega, ?_, ?_, by simp⟩
    · intro hk
      rw [hk] at h2
      simp only [List.length_nil] at h2
      omega
    · intro e he
      obtain ⟨p, x, hp, hne⟩ := h3 e he
      exact ⟨p, x, hp, fun _ => hne⟩
    · intro _
      rcases stepOutInner_exit c timeout ((s.cpu.pc + 4) % 2 ^ 32) s steps with hpc | hout
      · exact Or.inl hpc
      · right
        omega

/-- The calls of the outer loop of `StepOut` have the shape `LoopCalls`. -/
theorem stepOutLoop_calls (c : Core σ) (timeout inst : Nat) (s : Debugger σ) (steps : Nat)
    (hle : steps ≤ timeout) :
    ∃ l, (stepOutLoop c timeout inst s steps).1.trace = s.trace ++ l ∧
      LoopCalls c timeout steps s.cpu.pc inst l := by
  induction inst, s, steps using stepOutLoop.induct c timeout with
  | case1 inst s steps h r f ih =>
    have hb := stepOutBody_steps c timeout inst s steps h.2
    obtain ⟨k, hk1, hk2, hk3, hk4, hk5, hk6⟩ := stepOutBody_calls c timeout inst s steps h.2
    obtain ⟨l, hl1, hl2⟩ := ih hb.2
    rw [stepOutLoop, if_pos h]
    simp only [r, f] at hl1 hl2 ⊢
    refine ⟨k ++ Call.HostRead_Instruction (stepOutBody c timeout inst s steps).1.cpu.pc
      (PowerPC.HostRead_Instruction c (stepOutBody c timeout inst s steps).1).1 :: l, ?_, ?_⟩
    · rw [hl1]
      simp only [PowerPC.HostRead_Instruction, record_trace]
      rw [hk1]
      simp
    · refine LoopCalls.iter steps s.cpu.pc inst k _ _ l h.1 h.2 hk2 hk4 ?_ hk6 ?_
      · intro hLK
        rcases hk5 hLK with hpc | hout
        · exact Or.inl hpc
        · exact Or.inr (by omega)
      · rw [hk3]
        exact hl2
  | case2 inst s steps h =>
    rw [stepOutLoop, if_neg h]
    exact ⟨[], by simp, LoopCalls.exit steps s.cpu.pc inst h⟩

theorem singleSteps_cons_hostRead (a w : Nat) (l : List Call) :
    singleSteps (Call.HostRead_Instruction a w :: l) = singleSteps l := by
  simp [singleSteps, List.countP_cons, Call.isSingleStep]

theorem singleSteps_append (l k : List Call) :
    singleSteps (l ++ k) = singleSteps l + singleSteps k := by
  simp [singleSteps, List.countP_append]

theorem singleSteps_block (k : List Call) (hk : ∀ e ∈ k, ∃ p x, e = Call.SingleStep p x) :
    singleSteps k = k.length := by
  apply singleSteps_of_all
  intro e he
  obtain ⟨p, x, rfl⟩ := hk e he
  rfl

/-- In calls of the shape `LoopCalls`, preceded by the read that entered the
loop: after every read of a word other than the return word, made with budget
left, comes a non-empty block of single steps, then a read.  When the word has
the link bit set, the steps are issued at a `PC` different from the address
after the call and the read is at that address unless the budget is used up;
when it has the link bit clear, the block is one single step.  When the budget
is used up, that read is the last call of the loop. -/
theorem LoopCalls_after (c : Core σ) (timeout steps a w : Nat) (l : List Call)
    (hl : LoopCalls c timeout steps a w l) :
    ∀ (pre : List Call) (a1 w1 : Nat) (rest : List Call),
      Call.HostRead_Instruction a w :: l = pre ++ Call.HostRead_Instruction a1 w1 :: rest →
      w1 ≠ 0x4e800020 → steps + singleSteps pre < timeout →
      ∃ (k : List Call) (a' w' : Nat) (rest' : List Call),
        rest = k ++ Call.HostRead_Instruction a' w' :: rest' ∧ k ≠ [] ∧
        (∀ e ∈ k, ∃ p x, e = Call.SingleStep p x ∧
          (c.LK w1 = true → p ≠ (a1 + 4) % 2 ^ 32)) ∧
        (c.LK w1 = true →
          a' = (a1 + 4) % 2 ^ 32 ∨ steps + singleSteps (pre ++ k) = timeout) ∧
        (c.LK w1 = false → k.length = 1) ∧
        (steps + singleSteps (pre ++ k) = timeout → rest' = []) := by
  induction hl with
  | exit steps a w hexit =>
    intro pre a1 w1 rest hsplit hw hlt
    cases pre with
    | nil =>
      simp only [List.nil_append, List.cons.injEq, Call.HostRead_Instruction.injEq] at hsplit
      obtain ⟨⟨-, rfl⟩, -⟩ := hsplit
      simp only [singleSteps, List.countP_nil, Nat.add_zero] at hlt
      exact absurd ⟨hw, hlt⟩ hexit
    | cons y pre =>
      simp only [List.cons_append, List.cons.injEq] at hsplit
      have := congrArg List.length hsplit.2
      simp only [List.length_nil, List.length_append, List.length_cons] at this
      omega
  | iter steps a w k a' w' rest0 hw0 hlt0 hk hsteps hend hone hrest ih =>
    intro pre a1 w1 rest hsplit hw hlt
    have hblock : ∀ e ∈ k, ∃ p x, e = Call.SingleStep p x := by
      intro e he
      obtain ⟨p, x, hp, -⟩ := hsteps e he
      exact ⟨p, x, hp⟩
    have hklen := singleSteps_block k hblock
    cases pre with
    | nil =>
      simp only [List.nil_append, List.cons.injEq, Call.HostRead_Instruction.injEq] at hsplit
      obtain ⟨⟨rfl, rfl⟩, rfl⟩ := hsplit
      refine ⟨k, a', w', rest0, rfl, hk, hsteps, ?_, hone, ?_⟩
      · intro hLK
        rcases hend hLK with h1 | h1
        · exact Or.inl h1
        · right
          rw [List.nil_append, hklen]
          exact h1
      · intro hT
        rw [List.nil_append, hklen] at hT
        cases hrest with
        | exit _ _ _ _ => rfl
        | iter _ _ _ _ _ _ _ _ hlt1 _ _ _ _ _ => omega
    | cons y pre =>
      simp only [List.cons_append, List.cons.injEq] at hsplit
      obtain ⟨rfl, hsplit⟩ := hsplit
      have hnot : Call.HostRead_Instruction a1 w1 ∉ k := by
        intro hm
        obtain ⟨p, x, hp⟩ := hblock _ hm
        cases hp
      obtain ⟨t, hpre, hrest0⟩ := split_after_left _ k _ pre rest hsplit hnot
      have hcount : singleSteps (Call.HostRead_Instruction a w :: pre)
          = k.length + singleSteps t := by
        rw [singleSteps_cons_hostRead, hpre, singleSteps_append, hklen]
      have hlt' : steps + k.length + singleSteps t < timeout := by
        rw [hcount] at hlt
        omega
      obtain ⟨k2, a2, w2, rest2, h1, h2, h3, h4, h5, h6⟩ := ih t a1 w1 rest hrest0 hw hlt'
      have hcount2 : singleSteps (Call.HostRead_Instruction a w :: pre ++ k2)
          = k.length + singleSteps (t ++ k2) := by
        rw [List.cons_append, singleSteps_cons_hostRead, hpre, List.append_assoc,
          singleSteps_append k, hklen]
      refine ⟨k2, a2, w2, rest2, h1, h2, h3, ?_, h5, ?_⟩
      · intro hLK
        rcases h4 hLK with h4 | h4
        · exact Or.inl h4
        · right
          rw [hcount2]
          omega
      · intro hT
        apply h6
        rw [hcount2] at hT
        omega

/-- In a run of `StepOut` from the stepping state: after every read of a word
other than the return word, made with budget left, comes a non-empty block of
single steps with no other call in between, then a read.  When the word has
the link bit set, the steps are issued at a `PC` different from the address
after the call and the read is at that address unless the budget is used up;
when it has the link bit clear, the block is one single step.  When the budget
is used up, `StepOut` performs its final single step at the `PC` of that read
and returns. -/
theorem StepOut_after_read (c : Core σ) (s : Debugger σ) (h : CCPU.IsStepping s = true) :
    ∀ (pre : List Call) (a w : Nat) (rest : List Call),
      newCalls s (StepOut c s) = pre ++ Call.HostRead_Instruction a w :: rest →
      w ≠ 0x4e800020 → singleSteps pre < c.GetTicksPerSecond →
      ∃ (k : List Call) (a' w' : Nat) (rest' : List Call),
        rest = k ++ Call.HostRead_Instruction a' w' :: rest' ∧ k ≠ [] ∧
        (∀ e ∈ k, ∃ p x, e = Call.SingleStep p x ∧
          (c.LK w = true → p ≠ (a + 4) % 2 ^ 32)) ∧
        (c.LK w = true →
          a' = (a + 4) % 2 ^ 32 ∨ singleSteps (pre ++ k) = c.GetTicksPerSecond) ∧
        (c.LK w = false → k.length = 1) ∧
        (singleSteps (pre ++ k) = c.GetTicksPerSecond →
          ∃ post, rest' = Call.SingleStep a' w' :: Call.SetMode s.cpu.mode :: post ∧
            stepRequests post = 0) := by
  obtain ⟨l, hexit, hnew, -, -, -, hlast, -⟩ := StepOut_trace c s h
  have hpost : stepRequests (refreshCalls (c.SingleStep (stepOutExit c s).1.cpu).pc s.codeview ++
      [Call.UpdateButtonStates, Call.UpdateGUI]) = 0 := by
    have hr := refreshCalls_stepRequests (c.SingleStep (stepOutExit c s).1.cpu).pc s.codeview
    rw [stepRequests] at hr ⊢
    rw [List.countP_append, hr]
    simp [Call.isStepRequest]
  intro pre a w rest hsplit hw hlt
  -- the calls of the loop have the shape `LoopCalls`
  obtain ⟨l', hl1, hl2⟩ := stepOutLoop_calls c c.GetTicksPerSecond (stepOutEntry c s).1
    (stepOutEntry c s).2 0 (Nat.zero_le _)
  have hentry : (stepOutEntry c s).2.trace = s.trace ++
      [Call.ClearAllTemporary, Call.GetMode, Call.SetMode CoreMode.MODE_INTERPRETER,
        Call.HostRead_Instruction s.cpu.pc (stepOutEntry c s).1] := by
    simp [stepOutEntry, PowerPC.HostRead_Instruction, PowerPC.SetMode, PowerPC.GetMode,
      PowerPC.breakpoints.ClearAllTemporary]
  have hll : l' = l := by
    have e1 : (stepOutExit c s).1.trace = s.trace ++
        ([Call.ClearAllTemporary, Call.GetMode, Call.SetMode CoreMode.MODE_INTERPRETER,
          Call.HostRead_Instruction s.cpu.pc (stepOutEntry c s).1] ++ l') := by
      rw [stepOutExit, hl1, hentry, List.append_assoc]
    rw [hexit] at e1
    exact (List.append_cancel_left (List.append_cancel_left e1)).symm
  rw [hll] at hl2
  have hshape : LoopCalls c c.GetTicksPerSecond 0 s.cpu.pc (stepOutEntry c s).1 l := hl2
  -- locate the read inside the calls of the loop
  have hnew' : newCalls s (StepOut c s) =
      [Call.ClearAllTemporary, Call.GetMode, Call.SetMode CoreMode.MODE_INTERPRETER] ++
        ((Call.HostRead_Instruction s.cpu.pc (stepOutEntry c s).1 :: l) ++
          (Call.SingleStep (stepOutExit c s).1.cpu.pc
            (c.HostRead_Instruction (stepOutExit c s).1.cpu (stepOutExit c s).1.cpu.pc) ::
          Call.SetMode s.cpu.mode ::
          (refreshCalls (c.SingleStep (stepOutExit c s).1.cpu).pc s.codeview ++
            [Call.UpdateButtonStates, Call.UpdateGUI]))) := by
    rw [hnew]
    simp
  rw [hnew'] at hsplit
  obtain ⟨t1, hpre, hsplit1⟩ := split_after_left _ _ _ pre rest hsplit (by simp)
  have hnotin : Call.HostRead_Instruction a w ∉
      (Call.SingleStep (stepOutExit c s).1.cpu.pc
        (c.HostRead_Instruction (stepOutExit c s).1.cpu (stepOutExit c s).1.cpu.pc) ::
      Call.SetMode s.cpu.mode ::
      (refreshCalls (c.SingleStep (stepOutExit c s).1.cpu).pc s.codeview ++
        [Call.UpdateButtonStates, Call.UpdateGUI])) := by
    intro hm
    rcases List.mem_cons.1 hm with hm | hm
    · cases hm
    rcases List.mem_cons.1 hm with hm | hm
    · cases hm
    rcases List.mem_append.1 hm with hm | hm
    · have := (refreshCalls_not_core _ _ _ hm).2.2
      simp [Call.isHostRead] at this
    · simp at hm
  obtain ⟨t2, hloop, hrest⟩ := split_before_right _ _ _ t1 rest hsplit1 hnotin
  have hcount : singleSteps pre = singleSteps t1 := by
    rw [hpre, singleSteps_append]
    simp [singleSteps, Call.isSingleStep]
  have hlt' : 0 + singleSteps t1 < c.GetTicksPerSecond := by
    rw [hcount] at hlt
    omega
  obtain ⟨k, a', w', rest', h1, h2, h3, h4, h5, h6⟩ :=
    LoopCalls_after c c.GetTicksPerSecond 0 s.cpu.pc (stepOutEntry c s).1 l hshape t1 a w t2
      hloop hw hlt'
  have hcount2 : singleSteps (pre ++ k) = singleSteps (t1 ++ k) := by
    rw [singleSteps_append, singleSteps_append, hcount]
  refine ⟨k, a', w', rest' ++ (Call.SingleStep (stepOutExit c s).1.cpu.pc
        (c.HostRead_Instruction (stepOutExit c s).1.cpu (stepOutExit c s).1.cpu.pc) ::
      Call.SetMode s.cpu.mode ::
      (refreshCalls (c.SingleStep (stepOutExit c s).1.cpu).pc s.codeview ++
        [Call.UpdateButtonStates, Call.UpdateGUI])), ?_, h2, h3, ?_, h5, ?_⟩
  · rw [hrest, h1]
    simp
  · intro hLK
    rcases h4 hLK with h4 | h4
    · exact Or.inl h4
    · right
      rw [hcount2]
      omega
  · intro hT
    have hnil : rest' = [] := h6 (by rw [hcount2] at hT; omega)
    -- the read that ends the block is the last call of the loop
    have hlastcall : Call.HostRead_Instruction a' w' =
        Call.HostRead_Instruction (stepOutExit c s).1.cpu.pc
          (c.HostRead_Instruction (stepOutExit c s).1.cpu (stepOutExit c s).1.cpu.pc) := by
      rw [h1, hnil] at hloop
      rcases hlast with ⟨hl, -⟩ | ⟨k0, hk0⟩
      · rw [hl] at hloop
        have := congrArg List.length hloop
        simp only [List.length_cons, List.length_nil, List.length_append] at this
        have hklen : 0 < k.length := List.length_pos.2 h2
        omega
      · rw [hk0] at hloop
        have e2 : (Call.HostRead_Instruction s.cpu.pc (stepOutEntry c s).1 :: k0) ++
            [Call.HostRead_Instruction (stepOutExit c s).1.cpu.pc
              (c.HostRead_Instruction (stepOutExit c s).1.cpu (stepOutExit c s).1.cpu.pc)] =
            (t1 ++ Call.HostRead_Instruction a w :: k) ++
              [Call.HostRead_Instruction a' w'] := by
          rw [List.cons_append, hloop]
          simp
        have := (List.append_inj' e2 rfl).2
        simp only [List.cons.injEq, and_true] at this
        exact this.symm
    simp only [Call.HostRead_Instruction.injEq] at hlastcall
    obtain ⟨ha, hw'⟩ := hlastcall
    refine ⟨refreshCalls (c.SingleStep (stepOutExit c s).1.cpu).pc s.codeview ++
      [Call.UpdateButtonStates, Call.UpdateGUI], ?_, hpost⟩
    rw [hnil, ha, hw']
    rfl

/-- C8 (as stated, refuted): on the example memory without a return, with
`GetTicksPerSecond() = 2`, `StepOut` from the call at `0x1000` single-steps at
`0x1000`, `0x2000` and `0x2004` and returns with `PC = 0x2008`: `PC` never came
back to `0x1004`, and `StepOut` stopped inside the nested call. -/
theorem StepOut_nested_call_counterexample :
    CCPU.IsStepping (toyState 0x1000 0) = true ∧
      (toyCore toyMemoryNoReturn 2).LK
        (stepOutEntry (toyCore toyMemoryNoReturn 2) (toyState 0x1000 0)).1 = true ∧
      (newCalls (toyState 0x1000 0)
          (StepOut (toyCore toyMemoryNoReturn 2) (toyState 0x1000 0))).filter
          Call.isSingleStep =
        [Call.SingleStep 0x1000 0x48001001, Call.SingleStep 0x2000 0x60000000,
          Call.SingleStep 0x2004 0x60000000] ∧
      (StepOut (toyCore toyMemoryNoReturn 2) (toyState 0x1000 0)).cpu.pc = 0x2008 ∧
      (StepOut (toyCore toyMemoryNoReturn 2) (toyState 0x1000 0)).cpu.pc ≠ 0x1000 + 4 := by
  refine ⟨rfl, by decide, ?_, toy_nested_run.2.1, ?_⟩
  · rw [newCalls, toy_nested_run.1]
    simp [toyState, Call.isSingleStep]
  · rw [toy_nested_run.2.1]
    decide

/-- The run of `StepOut` on the example memory from the call at `0x1000`, with
a budget of 100: the callee at `0x2000` returns at once, and the run goes on to
the return at `0x100C`. -/
theorem toy_call_run :
    (StepOut (toyCore toyMemory 100) (toyState 0x1000 0)).trace =
      [Call.ClearAllTemporary, Call.GetMode, Call.SetMode CoreMode.MODE_INTERPRETER,
        Call.HostRead_Instruction 0x1000 0x48001001, Call.SingleStep 0x1000 0x48001001,
        Call.SingleStep 0x2000 0x4e800020,
        Call.HostRead_Instruction 0x1004 0x60000000, Call.SingleStep 0x1004 0x60000000,
        Call.HostRead_Instruction 0x1008 0x60000000, Call.SingleStep 0x1008 0x60000000,
        Call.HostRead_Instruction 0x100C 0x4e800020, Call.SingleStep 0x100C 0x4e800020,
        Call.SetMode CoreMode.MODE_JIT, Call.Center 0x1004, Call.UpdateLists, Call.Refresh,
        Call.UpdateCallstack, Call.UpdateButtonStates, Call.UpdateButtonStates,
        Call.UpdateGUI] := by
  simp [StepOut, stepOutLoop, stepOutBody, stepOutInner, toyCore, toyState,
    toyMemory, toyStep, PowerPC.SingleStep, PowerPC.HostRead_Instruction,
    PowerPC.GetMode, PowerPC.SetMode, PowerPC.breakpoints.ClearAllTemporary, record,
    CCPU.IsStepping, JumpToAddress, Update, UpdateGUI, UpdateButtonStates, UpdateCallstack,
    UpdateLists, CCodeView.Center]

/-- C8 (amended): in every run of `StepOut` from the stepping state, after
every read of an instruction at `PC = a` whose word has the link bit set and is
not the return word, made with budget left (fewer than `GetTicksPerSecond()`
single steps so far), the run goes on with a non-empty block of single steps,
each issued at a `PC` different from `a + 4` (modulo `2 ^ 32`), with no read of
an instruction and no return in between, so that a return word inside the
nested call does not end `StepOut`; the block is followed by a read, and that
read is at `PC = a + 4` unless the step budget is used up.  When the budget is
used up there, `StepOut` performs its final single step at the `PC` of that
read and returns.  The final single step of a run always directly follows a
read at the same `PC`.  Per iteration of the outer loop: entered with budget
left on a word with the link bit set, the loop body only single-steps, at a
`PC` different from `PC + 4`, and ends with `PC` at that address or with the
budget used up. -/
theorem StepOut_nested_call (c : Core σ) (s : Debugger σ) (h : CCPU.IsStepping s = true) :
    (∀ (pre : List Call) (a w : Nat) (rest : List Call),
        newCalls s (StepOut c s) = pre ++ Call.HostRead_Instruction a w :: rest →
        c.LK w = true → w ≠ 0x4e800020 → singleSteps pre < c.GetTicksPerSecond →
        ∃ (k : List Call) (a' w' : Nat) (rest' : List Call),
          rest = k ++ Call.HostRead_Instruction a' w' :: rest' ∧ k ≠ [] ∧
          (∀ e ∈ k, ∃ p x, e = Call.SingleStep p x ∧ p ≠ (a + 4) % 2 ^ 32) ∧
          (a' = (a + 4) % 2 ^ 32 ∨ singleSteps (pre ++ k) = c.GetTicksPerSecond) ∧
          (singleSteps (pre ++ k) = c.GetTicksPerSecond →
            ∃ post, rest' = Call.SingleStep a' w' :: Call.SetMode s.cpu.mode :: post ∧
              stepRequests post = 0)) ∧
      (∃ pre post w, newCalls s (StepOut c s) =
        pre ++ Call.HostRead_Instruction (stepOutExit c s).1.cpu.pc w ::
          Call.SingleStep (stepOutExit c s).1.cpu.pc w :: Call.SetMode s.cpu.mode :: post) ∧
      (∀ (t : Debugger σ) (timeout inst steps : Nat), c.LK inst = true → steps < timeout →
        (∀ e ∈ newCalls t (stepOutBody c timeout inst t steps).1,
          ∃ p w, e = Call.SingleStep p w ∧ p ≠ (t.cpu.pc + 4) % 2 ^ 32) ∧
        steps < (stepOutBody c timeout inst t steps).2 ∧
        ((stepOutBody c timeout inst t steps).1.cpu.pc = (t.cpu.pc + 4) % 2 ^ 32 ∨
          (stepOutBody c timeout inst t steps).2 = timeout)) := by
  obtain ⟨l, -, hnew, -, -, -, hlast, -⟩ := StepOut_trace c s h
  refine ⟨?_, ?_, ?_⟩
  · intro pre a w rest hsplit hLK hw hlt
    obtain ⟨k, a', w', rest', h1, h2, h3, h4, -, h6⟩ :=
      StepOut_after_read c s h pre a w rest hsplit hw hlt
    refine ⟨k, a', w', rest', h1, h2, ?_, h4 hLK, h6⟩
    intro e he
    obtain ⟨p, x, hp, hne⟩ := h3 e he
    exact ⟨p, x, hp, hne hLK⟩
  · rcases hlast with ⟨hl, heq⟩ | ⟨k, hk⟩
    · have e1 : (stepOutExit c s).1 = (stepOutEntry c s).2 := by rw [heq]
      refine ⟨[Call.ClearAllTemporary, Call.GetMode, Call.SetMode CoreMode.MODE_INTERPRETER],
        refreshCalls (c.SingleStep (stepOutExit c s).1.cpu).pc s.codeview ++
          [Call.UpdateButtonStates, Call.UpdateGUI], (stepOutEntry c s).1, ?_⟩
      rw [hnew, hl, e1]
      rfl
    · refine ⟨[Call.ClearAllTemporary, Call.GetMode, Call.SetMode CoreMode.MODE_INTERPRETER,
          Call.HostRead_Instruction s.cpu.pc (stepOutEntry c s).1] ++ k,
        refreshCalls (c.SingleStep (stepOutExit c s).1.cpu).pc s.codeview ++
          [Call.UpdateButtonStates, Call.UpdateGUI],
        c.HostRead_Instruction (stepOutExit c s).1.cpu (stepOutExit c s).1.cpu.pc, ?_⟩
      rw [hnew, hk]
      simp
  · intro t timeout inst steps hLK hlt
    have hbody : stepOutBody c timeout inst t steps =
        stepOutInner c timeout ((t.cpu.pc + 4) % 2 ^ 32) t steps := by
      simp [stepOutBody, hLK]
    obtain ⟨l, h1, -, h3⟩ := stepOutInner_trace c timeout ((t.cpu.pc + 4) % 2 ^ 32) t steps
    have hs := stepOutBody_steps c timeout inst t steps hlt
    refine ⟨?_, hs.1, ?_⟩
    · rw [hbody, newCalls, h1, List.drop_left]
      exact h3
    · rcases stepOutInner_exit c timeout ((t.cpu.pc + 4) % 2 ^ 32) t steps with hpc | hout
      · exact Or.inl (hbody ▸ hpc)
      · right
        have := hs.2
        rw [hbody] at this ⊢
        omega

theorem StepOut_nested_call_witness :
    CCPU.IsStepping (toyState 0x1000 0) = true ∧
      newCalls (toyState 0x1000 0) (StepOut (toyCore toyMemory 100) (toyState 0x1000 0)) =
        [Call.ClearAllTemporary, Call.GetMode, Call.SetMode CoreMode.MODE_INTERPRETER] ++
          Call.HostRead_Instruction 0x1000 0x48001001 ::
          [Call.SingleStep 0x1000 0x48001001, Call.SingleStep 0x2000 0x4e800020,
            Call.HostRead_Instruction 0x1004 0x60000000, Call.SingleStep 0x1004 0x60000000,
            Call.HostRead_Instruction 0x1008 0x60000000, Call.SingleStep 0x1008 0x60000000,
            Call.HostRead_Instruction 0x100C 0x4e800020, Call.SingleStep 0x100C 0x4e800020,
            Call.SetMode CoreMode.MODE_JIT, Call.Center 0x1004, Call.UpdateLists,
            Call.Refresh, Call.UpdateCallstack, Call.UpdateButtonStates,
            Call.UpdateButtonStates, Call.UpdateGUI] ∧
      (toyCore toyMemory 100).LK 0x48001001 = true ∧
      singleSteps [Call.ClearAllTemporary, Call.GetMode,
        Call.SetMode CoreMode.MODE_INTERPRETER] < (toyCore toyMemory 100).GetTicksPerSecond ∧
      ∃ (k : List Call) (a' w' : Nat) (rest' : List Call),
        [Call.SingleStep 0x1000 0x48001001, Call.SingleStep 0x2000 0x4e800020,
            Call.HostRead_Instruction 0x1004 0x60000000, Call.SingleStep 0x1004 0x60000000,
            Call.HostRead_Instruction 0x1008 0x60000000, Call.SingleStep 0x1008 0x60000000,
            Call.HostRead_Instruction 0x100C 0x4e800020, Call.SingleStep 0x100C 0x4e800020,
            Call.SetMode CoreMode.MODE_JIT, Call.Center 0x1004, Call.UpdateLists,
            Call.Refresh, Call.UpdateCallstack, Call.UpdateButtonStates,
            Call.UpdateButtonStates, Call.UpdateGUI] =
          k ++ Call.HostRead_Instruction a' w' :: rest' ∧ k ≠ [] ∧
        (∀ e ∈ k, ∃ p x, e = Call.SingleStep p x ∧ p ≠ (0x1000 + 4) % 2 ^ 32) ∧
        (a' = (0x1000 + 4) % 2 ^ 32 ∨
          singleSteps ([Call.ClearAllTemporary, Call.GetMode,
            Call.SetMode CoreMode.MODE_INTERPRETER] ++ k)
            = (toyCore toyMemory 100).GetTicksPerSecond) := by
  have hrun : newCalls (toyState 0x1000 0)
      (StepOut (toyCore toyMemory 100) (toyState 0x1000 0)) =
      [Call.ClearAllTemporary, Call.GetMode, Call.SetMode CoreMode.MODE_INTERPRETER] ++
        Call.HostRead_Instruction 0x1000 0x48001001 ::
        [Call.SingleStep 0x1000 0x48001001, Call.SingleStep 0x2000 0x4e800020,
          Call.HostRead_Instruction 0x1004 0x60000000, Call.SingleStep 0x1004 0x60000000,
          Call.HostRead_Instruction 0x1008 0x60000000, Call.SingleStep 0x1008 0x60000000,
          Call.HostRead_Instruction 0x100C 0x4e800020, Call.SingleStep 0x100C 0x4e800020,
          Call.SetMode CoreMode.MODE_JIT, Call.Center 0x1004, Call.UpdateLists,
          Call.Refresh, Call.UpdateCallstack, Call.UpdateButtonStates,
          Call.UpdateButtonStates, Call.UpdateGUI] := by
    rw [newCalls, toy_call_run]
    rfl
  have hLK : (toyCore toyMemory 100).LK 0x48001001 = true := by decide
  have hlt : singleSteps [Call.ClearAllTemporary, Call.GetMode,
      Call.SetMode CoreMode.MODE_INTERPRETER] < (toyCore toyMemory 100).GetTicksPerSecond := by
    decide
  obtain ⟨k, a', w', rest', h1, h2, h3, h4, -⟩ :=
    (StepOut_nested_call (toyCore toyMemory 100) (toyState 0x1000 0) rfl).1 _ _ _ _ hrun hLK
      (by decide) hlt
  exact ⟨rfl, hrun, hLK, hlt, k, a', w', rest', h1, h2, h3, h4⟩

/-! ## The stepping flag -/

/-- C10 (as stated, refuted): from the stepping state with a call at `PC`,
`StepOver` returns with the stepping flag off. -/
theorem stepping_kept_counterexample :
    CCPU.IsStepping (toyState 0x1000 0) = true ∧
      CCPU.IsStepping (StepOver (toyCore toyMemory 3) (toyState 0x1000 0)) = false := by
  refine ⟨rfl, ?_⟩
  rw [CCPU.IsStepping,
    (StepOver_onCall_fields (toyCore toyMemory 3) (toyState 0x1000 0) rfl (by decide)).1]

/-- C10 (amended): in the stepping state, and with a single-step primitive that
does not clear the stepping flag, `SingleStep` (StepInto) and `StepOut` return
in the stepping state, and `StepOver` returns in the stepping state exactly
when the instruction at `PC` does not have the link bit set; on a call it turns
the flag off with `EnableStepping(false)`. -/
theorem stepping_kept (c : Core σ) (s : Debugger σ) (h : CCPU.IsStepping s = true)
    (hstep : ∀ m : Machine σ, m.stepping = true → (c.SingleStep m).stepping = true) :
    CCPU.IsStepping (SingleStep c s) = true ∧
      CCPU.IsStepping (StepOut c s) = true ∧
      (CCPU.IsStepping (StepOver c s) = true ↔
        c.LK (c.HostRead_Instruction s.cpu s.cpu.pc) = false) := by
  have hinto : CCPU.IsStepping (SingleStep c s) = true := by
    rw [CCPU.IsStepping, (SingleStep_fields c s h).1]
    exact hstep _ h
  refine ⟨hinto, ?_, ?_⟩
  · rw [CCPU.IsStepping, StepOut_cpu c s h]
    apply hstep
    exact stepOutLoop_preserves c (fun m => m.stepping = true) hstep _ _ _ _ h
  · cases hLK : c.LK (c.HostRead_Instruction s.cpu s.cpu.pc)
    · have hover : StepOver c s = UpdateGUI (UpdateButtonStates (SingleStep c
          (record (Call.HostRead_Instruction s.cpu.pc
            (c.HostRead_Instruction s.cpu s.cpu.pc)) s))) := by
        simp [StepOver, h, PowerPC.HostRead_Instruction, hLK]
      have hr : CCPU.IsStepping (record (Call.HostRead_Instruction s.cpu.pc
          (c.HostRead_Instruction s.cpu s.cpu.pc)) s) = true := h
      simp only [iff_true]
      rw [hover, CCPU.IsStepping, UpdateGUI_cpu, UpdateButtonStates_cpu,
        (SingleStep_fields c _ hr).1]
      exact hstep _ h
    · rw [CCPU.IsStepping, (StepOver_onCall_fields c s h hLK).1]
      simp

theorem stepping_kept_witness :
    CCPU.IsStepping (toyState 0x1004 0) = true ∧
      (∀ m : Machine ToyRegs, m.stepping = true →
        ((toyCore toyMemory 3).SingleStep m).stepping = true) ∧
      CCPU.IsStepping (SingleStep (toyCore toyMemory 3) (toyState 0x1004 0)) = true ∧
      CCPU.IsStepping (StepOut (toyCore toyMemory 3) (toyState 0x1004 0)) = true ∧
      CCPU.IsStepping (StepOver (toyCore toyMemory 3) (toyState 0x1004 0)) = true := by
  have hstep : ∀ m : Machine ToyRegs, m.stepping = true →
      ((toyCore toyMemory 3).SingleStep m).stepping = true := by
    intro m hm
    simp only [toyCore, toyStep]
    split_ifs <;> exact hm
  have h := stepping_kept (toyCore toyMemory 3) (toyState 0x1004 0) rfl hstep
  exact ⟨rfl, hstep, h.1, h.2.1, h.2.2.2 (by decide)⟩

/-! ## The command handler `OnCodeStep` -/

theorem IDM_STEP_value : IDM_STEP = 417 := rfl

theorem IDM_STEPOVER_value : IDM_STEPOVER = 418 := rfl

theorem IDM_STEPOUT_value : IDM_STEPOUT = 419 := rfl

theorem IDM_TOGGLE_BREAKPOINT_value : IDM_TOGGLE_BREAKPOINT = 420 := rfl

theorem IDM_SKIP_value : IDM_SKIP = 421 := rfl

theorem IDM_SETPC_value : IDM_SETPC = 422 := rfl

theorem IDM_GOTOPC_value : IDM_GOTOPC = 423 := rfl

theorem PcBySteps_newCalls (c : Core σ) (s s' : Debugger σ) (h : PcBySteps c s s') :
    ∃ m : Machine σ, m.pc = s.cpu.pc ∧ m.regs = s.cpu.regs ∧
      s'.cpu.pc = (c.SingleStep^[stepRequests (newCalls s s')] m).pc := by
  obtain ⟨l, m, h1, h2, h3, h4⟩ := h
  refine ⟨m, h2, h3, ?_⟩
  rw [newCalls, h1, List.drop_left]
  exact h4

/-- A state that differs only by calls that request no step has the same
`PC` relation. -/
theorem PcBySteps_append (c : Core σ) (s s' s'' : Debugger σ) (k : List Call)
    (h : PcBySteps c s s') (htrace : s''.trace = s'.trace ++ k) (hcpu : s''.cpu.pc = s'.cpu.pc)
    (hk : stepRequests k = 0) : PcBySteps c s s'' := by
  obtain ⟨l, m, h1, h2, h3, h4⟩ := h
  refine ⟨l ++ k, m, ?_, h2, h3, ?_⟩
  · rw [htrace, h1, List.append_assoc]
  · rw [hcpu, h4, stepRequests, stepRequests, List.countP_append]
    rw [stepRequests] at hk
    rw [hk, Nat.add_zero]

theorem Update_stepRequests (s : Debugger σ) :
    ∃ k, (Update s).trace = s.trace ++ k ∧ stepRequests k = 0 := by
  refine ⟨_, Update_trace s, ?_⟩
  split <;> simp [stepRequests, Call.isStepRequest]

theorem JumpToAddress_stepRequests (address : Nat) (s : Debugger σ) :
    ∃ k, (JumpToAddress address s).2.trace = s.trace ++ k ∧ stepRequests k = 0 := by
  refine ⟨_, JumpToAddress_trace address s, ?_⟩
  split <;> simp [stepRequests, Call.isStepRequest]

theorem PcBySteps_refl (c : Core σ) (s : Debugger σ) : PcBySteps c s s :=
  ⟨[], s.cpu, by simp, rfl, rfl, by simp [stepRequests]⟩

theorem PcBySteps_SingleStep (c : Core σ) (s : Debugger σ) :
    PcBySteps c s (SingleStep c s) := by
  by_cases h : CCPU.IsStepping s = true
  · obtain ⟨hcpu, htrace, -⟩ := SingleStep_fields c s h
    refine ⟨_, (PowerPC.breakpoints.ClearAllTemporary s).cpu, htrace, rfl, rfl, ?_⟩
    have hr := refreshCalls_stepRequests
      (c.SingleStep (PowerPC.breakpoints.ClearAllTemporary s).cpu).pc s.codeview
    rw [stepRequests] at hr
    rw [hcpu, stepRequests, List.countP_append, hr]
    simp [Call.isStepRequest]
  · have : SingleStep c s = s := by simp [SingleStep, h]
    rw [this]
    exact PcBySteps_refl c s

theorem PcBySteps_StepOver (c : Core σ) (s : Debugger σ) :
    PcBySteps c s (StepOver c s) := by
  by_cases h : CCPU.IsStepping s = true
  · cases hLK : c.LK (c.HostRead_Instruction s.cpu s.cpu.pc)
    · have hover : StepOver c s = UpdateGUI (UpdateButtonStates (SingleStep c
          (record (Call.HostRead_Instruction s.cpu.pc
            (c.HostRead_Instruction s.cpu s.cpu.pc)) s))) := by
        simp [StepOver, h, PowerPC.HostRead_Instruction, hLK]
      have hrec : PcBySteps c s (record (Call.HostRead_Instruction s.cpu.pc
          (c.HostRead_Instruction s.cpu s.cpu.pc)) s) :=
        ⟨[Call.HostRead_Instruction s.cpu.pc (c.HostRead_Instruction s.cpu s.cpu.pc)],
          s.cpu, rfl, rfl, rfl, by simp [stepRequests, Call.isStepRequest]⟩
      obtain ⟨l, m, h1, h2, h3, h4⟩ := PcBySteps_SingleStep c (record
        (Call.HostRead_Instruction s.cpu.pc (c.HostRead_Instruction s.cpu s.cpu.pc)) s)
      rw [hover]
      refine ⟨Call.HostRead_Instruction s.cpu.pc (c.HostRead_Instruction s.cpu s.cpu.pc) ::
        (l ++ [Call.UpdateButtonStates, Call.UpdateGUI]), m, ?_, h2, h3, ?_⟩
      · simp only [UpdateGUI, UpdateButtonStates, record_trace, h1]
        simp
      · simp only [UpdateGUI_cpu, UpdateButtonStates_cpu, h4]
        simp [stepRequests, List.countP_cons, List.countP_append, Call.isStepRequest]
    · obtain ⟨hcpu, htrace⟩ := StepOver_onCall_fields c s h hLK
      refine ⟨_, s.cpu, htrace, rfl, rfl, ?_⟩
      have hr := refreshCalls_stepRequests s.cpu.pc s.codeview
      rw [stepRequests] at hr
      rw [hcpu, stepRequests]
      simp [List.countP_cons, List.countP_append, Call.isStepRequest, hr]
  · have : StepOver c s = s := by simp [StepOver, h]
    rw [this]
    exact PcBySteps_refl c s

/-- The core state after the inner loop is reached by as many single steps as
`steps` grew by. -/
theorem stepOutInner_cpu (c : Core σ) (timeout next_pc : Nat) (s : Debugger σ) (steps : Nat) :
    (stepOutInner c timeout next_pc s steps).1.cpu =
      c.SingleStep^[(stepOutInner c timeout next_pc s steps).2 - steps] s.cpu := by
  induction s, steps using stepOutInner.induct c timeout next_pc with
  | case1 s steps h ih =>
    have hb := (stepOutInner_steps_bounds c timeout next_pc (PowerPC.SingleStep c s)
      (steps + 1)).1
    rw [stepOutInner, if_pos h, ih]
    have e : (stepOutInner c timeout next_pc (PowerPC.SingleStep c s) (steps + 1)).2 - steps =
        ((stepOutInner c timeout next_pc (PowerPC.SingleStep c s) (steps + 1)).2
          - (steps + 1)) + 1 := by omega
    rw [e, Function.iterate_succ_apply]
    rfl
  | case2 s steps h =>
    rw [stepOutInner, if_neg h]
    simp

theorem stepOutBody_cpu (c : Core σ) (timeout inst : Nat) (s : Debugger σ) (steps : Nat) :
    (stepOutBody c timeout inst s steps).1.cpu =
      c.SingleStep^[(stepOutBody c timeout inst s steps).2 - steps] s.cpu := by
  unfold stepOutBody
  split
  · exact stepOutInner_cpu c timeout _ s steps
  · simp

/-- The core state after the outer loop is reached by as many single steps as
`steps` grew by. -/
theorem stepOutLoop_cpu (c : Core σ) (timeout inst : Nat) (s : Debugger σ) (steps : Nat)
    (hle : steps ≤ timeout) :
    (stepOutLoop c timeout inst s steps).1.cpu =
      c.SingleStep^[(stepOutLoop c timeout inst s steps).2 - steps] s.cpu := by
  induction inst, s, steps using stepOutLoop.induct c timeout with
  | case1 inst s steps h r f ih =>
    have hb := stepOutBody_steps c timeout inst s steps h.2
    have hs := stepOutLoop_steps c timeout f.1 f.2 r.2 hb.2
    have hbody := stepOutBody_cpu c timeout inst s steps
    have ih' := ih hb.2
    rw [stepOutLoop, if_pos h]
    simp only [r, f] at ih' hs hb ⊢
    rw [ih']
    have hf : (PowerPC.HostRead_Instruction c (stepOutBody c timeout inst s steps).1).2.cpu =
        (stepOutBody c timeout inst s steps).1.cpu := rfl
    rw [hf, hbody, ← Function.iterate_add_apply]
    congr 1
    omega
  | case2 inst s steps h =>
    rw [stepOutLoop, if_neg h]
    simp

theorem PcBySteps_StepOut (c : Core σ) (s : Debugger σ) :
    PcBySteps c s (StepOut c s) := by
  by_cases h : CCPU.IsStepping s = true
  · obtain ⟨l, hexit, hnew, hsteps, hb, hl, -, -⟩ := StepOut_trace c s h
    have hcpu := StepOut_cpu c s h
    have hloop := stepOutLoop_cpu c c.GetTicksPerSecond (stepOutEntry c s).1
      (stepOutEntry c s).2 0 (Nat.zero_le _)
    obtain ⟨l', htr⟩ : ∃ l', (StepOut c s).trace = s.trace ++ l' := by
      rw [StepOut_eq c s h]
      simp only [UpdateGUI, UpdateButtonStates, record_trace]
      rw [refresh_trace]
      simp only [PowerPC.SetMode, record_trace, record_cpu, record_codeview,
        PowerPC_SingleStep_trace, PowerPC_SingleStep_cpu, PowerPC_SingleStep_codeview, hexit,
        List.append_assoc]
      exact ⟨_, rfl⟩
    have hl' : l' = newCalls s (StepOut c s) := by
      rw [newCalls, htr, List.drop_left]
    refine ⟨l', (stepOutEntry c s).2.cpu, htr, rfl, rfl, ?_⟩
    have hreq : stepRequests l = (stepOutExit c s).2 := by
      rw [← hsteps, stepRequests, singleSteps]
      apply List.countP_congr
      intro e he
      rcases hl e he with h1 | h1 <;> cases e <;>
        simp_all [Call.isStepRequest, Call.isSingleStep, Call.isHostRead]
    have hr := refreshCalls_stepRequests (c.SingleStep (stepOutExit c s).1.cpu).pc s.codeview
    have hcount : stepRequests l' = (stepOutExit c s).2 + 1 := by
      rw [hl', hnew]
      rw [stepRequests] at hr hreq ⊢
      simp only [List.countP_append, List.countP_cons, List.countP_nil, hr, hreq,
        Call.isStepRequest]
      simp
    rw [hcount, hcpu, Function.iterate_succ_apply']
    have : (stepOutExit c s).1.cpu = c.SingleStep^[(stepOutExit c s).2] (stepOutEntry c s).2.cpu := by
      rw [stepOutExit]
      exact hloop
    rw [this]
  · have : StepOut c s = s := by simp [StepOut, h]
    rw [this]
    exact PcBySteps_refl c s

theorem PcBySteps_ToggleBreakpoint (c : Core σ) (s : Debugger σ) :
    PcBySteps c s (ToggleBreakpoint s) := by
  by_cases h : CCPU.IsStepping s = true
  · simp only [ToggleBreakpoint, h, if_true]
    cases hcv : s.codeview with
    | none =>
      obtain ⟨k, hk, hk0⟩ := Update_stepRequests s
      exact PcBySteps_append c s s _ k (PcBySteps_refl c s) hk (by simp) hk0
    | some selection =>
      simp only
      have h1 : PcBySteps c s (CCodeView.ToggleBreakpoint selection s) :=
        ⟨[Call.ToggleBreakpoint selection], s.cpu, rfl, rfl, rfl,
          by simp [stepRequests, Call.isStepRequest, CCodeView.ToggleBreakpoint]⟩
      obtain ⟨k, hk, hk0⟩ := Update_stepRequests (CCodeView.ToggleBreakpoint selection s)
      exact PcBySteps_append c s _ _ k h1 hk (by simp) hk0
  · have : ToggleBreakpoint s = s := by simp [ToggleBreakpoint, h]
    rw [this]
    exact PcBySteps_refl c s

/-- The toolbar refresh that closes `OnCodeStep` requests no step and leaves
`PC` alone. -/
theorem PcBySteps_toolbar (c : Core σ) (s s' : Debugger σ) (h : PcBySteps c s s') :
    PcBySteps c s (UpdateGUI (UpdateButtonStates s')) :=
  PcBySteps_append c s s' _ [Call.UpdateButtonStates, Call.UpdateGUI] h
    (by simp [UpdateGUI, UpdateButtonStates]) rfl (by simp [stepRequests, Call.isStepRequest])

/-- Every command of `OnCodeStep` other than `IDM_SKIP` and `IDM_SETPC` moves
`PC` by its step requests only. -/
theorem PcBySteps_OnCodeStep (c : Core σ) (s : Debugger σ) (id : Nat)
    (h1 : id ≠ IDM_SKIP) (h2 : id ≠ IDM_SETPC) : PcBySteps c s (OnCodeStep c id s) := by
  unfold OnCodeStep
  simp only [h1, h2, if_false]
  apply PcBySteps_toolbar
  split_ifs
  · exact PcBySteps_SingleStep c s
  · exact PcBySteps_StepOver c s
  · exact PcBySteps_StepOut c s
  · exact PcBySteps_ToggleBreakpoint c s
  · obtain ⟨k, hk, hk0⟩ := JumpToAddress_stepRequests s.cpu.pc s
    exact PcBySteps_append c s s _ k (PcBySteps_refl c s) hk (by simp) hk0
  · exact PcBySteps_refl c s

/-- The commands `IDM_SKIP` and `IDM_SETPC`: the state returned. -/
theorem OnCodeStep_SKIP_SETPC (c : Core σ) (s : Debugger σ) :
    OnCodeStep c IDM_SKIP s = UpdateGUI (UpdateButtonStates (Update
        { s with cpu := { s.cpu with pc := (s.cpu.pc + 4) % 2 ^ 32 } })) ∧
      ∀ selection, s.codeview = some selection →
        OnCodeStep c IDM_SETPC s = UpdateGUI (UpdateButtonStates (Update
          { s with cpu := { s.cpu with pc := selection } })) := by
  refine ⟨?_, ?_⟩
  · simp [OnCodeStep, IDM_STEP_value, IDM_STEPOVER_value, IDM_STEPOUT_value,
      IDM_TOGGLE_BREAKPOINT_value, IDM_SKIP_value]
  · intro selection hsel
    simp [OnCodeStep, IDM_STEP_value, IDM_STEPOVER_value, IDM_STEPOUT_value,
      IDM_TOGGLE_BREAKPOINT_value, IDM_SKIP_value, IDM_SETPC_value, hsel]

/-- C11 (as stated, refuted): with the core running (`IsStepping()` false) and
`PC = 0x1000`, the command `IDM_SKIP` returns with `PC = 0x1004` although it
requested no step from the core. -/
theorem OnCodeStep_pc_counterexample :
    CCPU.IsStepping toyRunning = false ∧ toyRunning.cpu.pc = 0x1000 ∧
      (OnCodeStep (toyCore toyMemory 3) IDM_SKIP toyRunning).cpu.pc = 0x1004 ∧
      stepRequests (newCalls toyRunning
        (OnCodeStep (toyCore toyMemory 3) IDM_SKIP toyRunning)) = 0 := by
  refine ⟨rfl, rfl, ?_, ?_⟩
  · rw [(OnCodeStep_SKIP_SETPC (toyCore toyMemory 3) toyRunning).1]
    simp [toyRunning]
  · rw [(OnCodeStep_SKIP_SETPC (toyCore toyMemory 3) toyRunning).1]
    simp [newCalls, UpdateGUI, UpdateButtonStates, Update, UpdateCallstack, record, toyRunning,
      stepRequests, Call.isStepRequest]

/-- C11 (amended): `PC` is written by the core executing instructions and by
the two commands `IDM_SKIP` (`PC += 4` modulo `2 ^ 32`) and `IDM_SETPC`
(`PC = codeview->GetSelection()`), which write it directly, in every state,
stepping or not, without any step request.  For every other command
identifier (`IDM_STEP`, `IDM_STEPOVER`, `IDM_STEPOUT`, `IDM_TOGGLE_BREAKPOINT`,
`IDM_GOTOPC`, or one that no case handles) the `PC` after the command is the
`PC` reached from a core state with the `PC` and registers held before by as
many single steps as the command requested, and with `IsStepping()` false the
command leaves `PC` unchanged. -/
theorem OnCodeStep_pc (c : Core σ) (s : Debugger σ) (id : Nat) :
    (OnCodeStep c IDM_SKIP s).cpu.pc = (s.cpu.pc + 4) % 2 ^ 32 ∧
      stepRequests (newCalls s (OnCodeStep c IDM_SKIP s)) = 0 ∧
      (∀ selection, s.codeview = some selection →
        (OnCodeStep c IDM_SETPC s).cpu.pc = selection ∧
        stepRequests (newCalls s (OnCodeStep c IDM_SETPC s)) = 0) ∧
      (id ≠ IDM_SKIP → id ≠ IDM_SETPC →
        (∃ m : Machine σ, m.pc = s.cpu.pc ∧ m.regs = s.cpu.regs ∧
          (OnCodeStep c id s).cpu.pc =
            (c.SingleStep^[stepRequests (newCalls s (OnCodeStep c id s))] m).pc) ∧
        (CCPU.IsStepping s = false → (OnCodeStep c id s).cpu.pc = s.cpu.pc)) := by
  obtain ⟨hskip, hset⟩ := OnCodeStep_SKIP_SETPC c s
  have hupd : ∀ t : Debugger σ, t.trace = s.trace →
      stepRequests (newCalls s (UpdateGUI (UpdateButtonStates (Update t)))) = 0 := by
    intro t ht
    obtain ⟨k, hk, hk0⟩ := Update_stepRequests t
    rw [stepRequests] at hk0
    simp only [newCalls, UpdateGUI, UpdateButtonStates, record_trace, hk, ht,
      List.append_assoc, List.drop_left, stepRequests, List.countP_append, hk0]
    simp [Call.isStepRequest]
  refine ⟨?_, ?_, ?_, ?_⟩
  · rw [hskip]
    simp
  · rw [hskip]
    exact hupd _ rfl
  · intro selection hsel
    rw [hset selection hsel]
    exact ⟨by simp, hupd _ rfl⟩
  · intro h1 h2
    refine ⟨PcBySteps_newCalls c s _ (PcBySteps_OnCodeStep c s id h1 h2), ?_⟩
    intro hns
    unfold OnCodeStep
    simp only [h1, h2, if_false, UpdateGUI_cpu, UpdateButtonStates_cpu]
    have e1 : SingleStep c s = s := by simp [SingleStep, hns]
    have e2 : StepOver c s = s := by simp [StepOver, hns]
    have e3 : StepOut c s = s := by simp [StepOut, hns]
    have e4 : ToggleBreakpoint s = s := by simp [ToggleBreakpoint, hns]
    rw [e1, e2, e3, e4]
    split_ifs <;> simp

theorem OnCodeStep_pc_witness :
    IDM_STEP ≠ IDM_SKIP ∧ IDM_STEP ≠ IDM_SETPC ∧
      CCPU.IsStepping toyRunning = false ∧
      (OnCodeStep (toyCore toyMemory 3) IDM_STEP toyRunning).cpu.pc = toyRunning.cpu.pc ∧
      (OnCodeStep (toyCore toyMemory 3) IDM_SKIP (toyState 0x1000 0)).cpu.pc
        = (0x1000 + 4) % 2 ^ 32 := by
  have h1 : IDM_STEP ≠ IDM_SKIP := by rw [IDM_STEP_value, IDM_SKIP_value]; decide
  have h2 : IDM_STEP ≠ IDM_SETPC := by rw [IDM_STEP_value, IDM_SETPC_value]; decide
  have h := OnCodeStep_pc (toyCore toyMemory 3) toyRunning IDM_STEP
  have h' := OnCodeStep_pc (toyCore toyMemory 3) (toyState 0x1000 0) IDM_STEP
  exact ⟨h1, h2, rfl, (h.2.2.2 h1 h2).2 rfl, h'.1⟩

/-! ## The link-bit test -/

/-- With the link bit clear, `StepOver` is `SingleStep` after the instruction
read, followed by the toolbar refresh. -/
theorem StepOver_nonCall_eq (c : Core σ) (s : Debugger σ) (h : CCPU.IsStepping s = true)
    (hLK : c.LK (c.HostRead_Instruction s.cpu s.cpu.pc) = false) :
    StepOver c s = UpdateGUI (UpdateButtonStates (SingleStep c
      (record (Call.HostRead_Instruction s.cpu.pc (c.HostRead_Instruction s.cpu s.cpu.pc))
        s))) := by
  simp [StepOver, h, PowerPC.HostRead_Instruction, hLK]

/-- C12 (as stated, refuted): the word `0x7C632A15` has primary opcode 31, not
a branch opcode, and its least-significant bit is set; with it at `PC = 0x1004`,
`StepOver` does not take the StepInto path: it requests no step, installs the
temporary breakpoint at `0x1008` and turns stepping off. -/
theorem StepOver_link_bit_counterexample :
    primaryOpcode 0x7C632A15 = 31 ∧
      (toyCore toyMemoryRecordForm 3).HostRead_Instruction (toyState 0x1004 0).cpu 0x1004
        = 0x7C632A15 ∧
      (toyCore toyMemoryRecordForm 3).LK 0x7C632A15 = decide (0x7C632A15 % 2 = 1) ∧
      CCPU.IsStepping (toyState 0x1004 0) = true ∧
      stepRequests (newCalls (toyState 0x1004 0)
        (StepOver (toyCore toyMemoryRecordForm 3) (toyState 0x1004 0))) = 0 ∧
      temporaryAddresses
        (StepOver (toyCore toyMemoryRecordForm 3) (toyState 0x1004 0)).cpu.breakpoints
        = [0x1008] ∧
      CCPU.IsStepping (StepOver (toyCore toyMemoryRecordForm 3) (toyState 0x1004 0))
        = false := by
  obtain ⟨hcpu, htrace⟩ := StepOver_onCall_fields (toyCore toyMemoryRecordForm 3)
    (toyState 0x1004 0) rfl (by decide)
  refine ⟨by decide, by decide, by decide, rfl, ?_, ?_, ?_⟩
  · have hr := refreshCalls_stepRequests (toyState 0x1004 0).cpu.pc (toyState 0x1004 0).codeview
    rw [stepRequests] at hr
    rw [newCalls, htrace, List.drop_left, stepRequests]
    simp [List.countP_cons, List.countP_append, Call.isStepRequest, hr]
  · rw [hcpu]
    decide
  · rw [CCPU.IsStepping, hcpu]

/-- C12 (amended): when `inst.LK` is the least-significant bit of the
instruction word, the test of `StepOver` and `StepOut` looks at that bit alone,
whatever the opcode.  In the stepping state, on a word with bit 0 clear
`StepOver` takes the StepInto path and makes no `Add` call on the breakpoint
store; on a word with bit 0 set, branch or not, it requests no step, installs
the temporary breakpoint at `PC + 4` and turns stepping off.  The body of the
loop of `StepOut` takes its step-over branch exactly on the words with bit 0
set; and in every run of `StepOut`, after a read at `PC = a` of a word other
than the return word, made with budget left, comes a non-empty block of single
steps and then a read: for a word with bit 0 clear the block is one single
step, and for a word with bit 0 set its steps are issued at a `PC` different
from `a + 4` and the read is at `a + 4` unless the budget is used up. -/
theorem StepOver_link_bit_only (c : Core σ) (s : Debugger σ) (h : CCPU.IsStepping s = true)
    (hbit : ∀ w, c.LK w = decide (w % 2 = 1)) :
    (c.HostRead_Instruction s.cpu s.cpu.pc % 2 = 0 →
        (StepOver c s).cpu = (SingleStep c s).cpu ∧
        (∀ a t, Call.Add a t ∉ newCalls s (StepOver c s)) ∧
        (newCalls s (StepOver c s)).count Call.StepOpcode = 1) ∧
      (c.HostRead_Instruction s.cpu s.cpu.pc % 2 = 1 →
        Call.Add ((s.cpu.pc + 4) % 2 ^ 32) true ∈ newCalls s (StepOver c s) ∧
        stepRequests (newCalls s (StepOver c s)) = 0 ∧
        CCPU.IsStepping (StepOver c s) = false) ∧
      (∀ (timeout inst steps : Nat) (t : Debugger σ),
        stepOutBody c timeout inst t steps =
          if inst % 2 = 1 then stepOutInner c timeout ((t.cpu.pc + 4) % 2 ^ 32) t steps
          else (PowerPC.SingleStep c t, steps + 1)) ∧
      (∀ (pre : List Call) (a w : Nat) (rest : List Call),
        newCalls s (StepOut c s) = pre ++ Call.HostRead_Instruction a w :: rest →
        w ≠ 0x4e800020 → singleSteps pre < c.GetTicksPerSecond →
        ∃ (k : List Call) (a' w' : Nat) (rest' : List Call),
          rest = k ++ Call.HostRead_Instruction a' w' :: rest' ∧ k ≠ [] ∧
          (∀ e ∈ k, ∃ p x, e = Call.SingleStep p x) ∧
          (w % 2 = 0 → k.length = 1) ∧
          (w % 2 = 1 →
            (∀ e ∈ k, ∃ p x, e = Call.SingleStep p x ∧ p ≠ (a + 4) % 2 ^ 32) ∧
            (a' = (a + 4) % 2 ^ 32 ∨ singleSteps (pre ++ k) = c.GetTicksPerSecond))) := by
  refine ⟨?_, ?_, ?_, ?_⟩
  · intro hw
    have hLK : c.LK (c.HostRead_Instruction s.cpu s.cpu.pc) = false := by
      rw [hbit]; simp [hw]
    have hover := StepOver_nonCall_eq c s h hLK
    have hr : CCPU.IsStepping (record (Call.HostRead_Instruction s.cpu.pc
        (c.HostRead_Instruction s.cpu s.cpu.pc)) s) = true := h
    obtain ⟨hcpu, -, -⟩ := SingleStep_fields c s h
    obtain ⟨hcpu', htrace', -⟩ := SingleStep_fields c _ hr
    have hnew : newCalls s (StepOver c s) =
        Call.HostRead_Instruction s.cpu.pc (c.HostRead_Instruction s.cpu s.cpu.pc) ::
          ([Call.ClearAllTemporary, Call.InvalidateICache s.cpu.pc 4 true, Call.StepOpcode,
            Call.Sleep 20] ++
          (refreshCalls (c.SingleStep (PowerPC.breakpoints.ClearAllTemporary s).cpu).pc
            s.codeview ++ [Call.UpdateButtonStates, Call.UpdateGUI])) := by
      rw [newCalls, hover]
      simp only [UpdateGUI, UpdateButtonStates, record_trace]
      rw [htrace']
      simp only [record_trace, record_cpu, record_codeview, List.append_assoc, List.drop_left]
      rfl
    refine ⟨?_, ?_, ?_⟩
    · rw [hover, hcpu]
      simp only [UpdateGUI_cpu, UpdateButtonStates_cpu]
      rw [hcpu']
      rfl
    · intro a t hmem
      rw [hnew] at hmem
      rcases List.mem_cons.1 hmem with hm | hm
      · cases hm
      rcases List.mem_append.1 hm with hm | hm
      · simp at hm
      rcases List.mem_append.1 hm with hm | hm
      · have := (refreshCalls_not_core _ _ _ hm).1
        simp [Call.isCoreEffect] at this
      · simp at hm
    · rw [hnew]
      have hop : (refreshCalls (c.SingleStep
          (PowerPC.breakpoints.ClearAllTemporary s).cpu).pc s.codeview).count Call.StepOpcode
          = 0 := by
        rw [List.count_eq_zero]
        intro hm
        have := (refreshCalls_not_core _ _ _ hm).1
        simp [Call.isCoreEffect] at this
      simp [List.count_cons, List.count_append, hop]
  · intro hw
    have hLK : c.LK (c.HostRead_Instruction s.cpu s.cpu.pc) = true := by
      rw [hbit]; simp [hw]
    obtain ⟨hcpu, htrace⟩ := StepOver_onCall_fields c s h hLK
    have hr := refreshCalls_stepRequests s.cpu.pc s.codeview
    rw [stepRequests] at hr
    refine ⟨?_, ?_, ?_⟩
    · rw [newCalls, htrace, List.drop_left]
      simp
    · rw [newCalls, htrace, List.drop_left, stepRequests]
      simp [List.countP_cons, List.countP_append, Call.isStepRequest, hr]
    · rw [CCPU.IsStepping, hcpu]
  · intro timeout inst steps t
    unfold stepOutBody
    rw [hbit]
    by_cases hw : inst % 2 = 1 <;> simp [hw]
  · intro pre a w rest hsplit hw hlt
    obtain ⟨k, a', w', rest', h1, h2, h3, h4, h5, -⟩ :=
      StepOut_after_read c s h pre a w rest hsplit hw hlt
    refine ⟨k, a', w', rest', h1, h2, ?_, ?_, ?_⟩
    · intro e he
      obtain ⟨p, x, hp, -⟩ := h3 e he
      exact ⟨p, x, hp⟩
    · intro hbit0
      apply h5
      rw [hbit]
      simp [hbit0]
    · intro hbit1
      have hLK : c.LK w = true := by
        rw [hbit]
        simp [hbit1]
      refine ⟨?_, h4 hLK⟩
      intro e he
      obtain ⟨p, x, hp, hne⟩ := h3 e he
      exact ⟨p, x, hp, hne hLK⟩

theorem StepOver_link_bit_only_witness :
    CCPU.IsStepping (toyState 0x1004 0) = true ∧
      (∀ w, (toyCore toyMemoryRecordForm 3).LK w = decide (w % 2 = 1)) ∧
      (toyCore toyMemoryRecordForm 3).HostRead_Instruction (toyState 0x1004 0).cpu
        (toyState 0x1004 0).cpu.pc % 2 = 1 ∧
      Call.Add ((0x1004 + 4) % 2 ^ 32) true ∈ newCalls (toyState 0x1004 0)
        (StepOver (toyCore toyMemoryRecordForm 3) (toyState 0x1004 0)) := by
  have h := StepOver_link_bit_only (toyCore toyMemoryRecordForm 3) (toyState 0x1004 0) rfl
    (fun _ => rfl)
  exact ⟨rfl, fun _ => rfl, by decide, (h.2.1 (by decide)).1⟩

/-- C13: in the loop of `StepOut`, with budget left (`steps < timeout`), when
the instruction at `PC` has the link bit set but one single step moves `PC` to
`PC + 4` (modulo `2 ^ 32`), the step-over branch performs exactly one single
step and one increment of `steps`: the iteration returns what the other branch
of the loop body returns on that state. -/
theorem stepOutBody_call_falls_through (c : Core σ) (timeout inst steps : Nat) (s : Debugger σ)
    (hLK : c.LK inst = true) (hlt : steps < timeout)
    (hpc : (c.SingleStep s.cpu).pc = (s.cpu.pc + 4) % 2 ^ 32) :
    stepOutBody c timeout inst s steps = (PowerPC.SingleStep c s, steps + 1) ∧
      stepOutBody c timeout inst s steps =
        stepOutBody { c with LK := fun _ => false } timeout inst s steps ∧
      singleSteps (newCalls s (stepOutBody c timeout inst s steps).1) = 1 := by
  have hne : s.cpu.pc ≠ (s.cpu.pc + 4) % 2 ^ 32 := by omega
  have hbody : stepOutBody c timeout inst s steps = (PowerPC.SingleStep c s, steps + 1) := by
    simp only [stepOutBody, hLK, if_true]
    rw [stepOutInner, if_pos ⟨hne, hlt⟩, stepOutInner, if_neg]
    intro hcon
    exact hcon.1 hpc
  refine ⟨hbody, ?_, ?_⟩
  · rw [hbody]
    simp only [stepOutBody, Bool.false_eq_true, if_false]
    rfl
  · rw [hbody]
    simp [newCalls, singleSteps, Call.isSingleStep]

theorem stepOutBody_call_falls_through_witness :
    (toyCore toyMemoryRecordForm 3).LK 0x7C632A15 = true ∧ 0 < 3 ∧
      ((toyCore toyMemoryRecordForm 3).SingleStep (toyState 0x1004 0).cpu).pc
        = ((toyState 0x1004 0).cpu.pc + 4) % 2 ^ 32 ∧
      stepOutBody (toyCore toyMemoryRecordForm 3) 3 0x7C632A15 (toyState 0x1004 0) 0 =
        (PowerPC.SingleStep (toyCore toyMemoryRecordForm 3) (toyState 0x1004 0), 0 + 1) :=
  ⟨by decide, by decide, by decide,
    (stepOutBody_call_falls_through (toyCore toyMemoryRecordForm 3) 3 0x7C632A15 0
      (toyState 0x1004 0) (by decide) (by decide) (by decide)).1⟩

/-! ## The address box -/

/-- C14: `JumpToAddress` returns true for every 32-bit address, so, with a
toolbar, `OnAddrBoxChange` sets the normal background exactly when the trimmed
text parses as a hexadecimal `unsigned long`, the red one exactly when it does
not, and a parsed value, also one above `0xFFFFFFFF`, is not rejected: the view
is centred on the value modulo `2 ^ 32`. -/
theorem OnAddrBoxChange_success {τ : Type} (w : WxString τ) (value : τ) (s : Debugger σ) :
    (∀ (address : Nat) (t : Debugger σ), address < 2 ^ 32 →
        (JumpToAddress address t).1 = true) ∧
      ((OnAddrBoxChange w (some value) s).2 = some wxColour.wxNullColour ↔
        (w.ToULong (w.Trim false (w.Trim true value)) 16).isSome = true) ∧
      ((OnAddrBoxChange w (some value) s).2 = some wxColour.wxRED ↔
        w.ToULong (w.Trim false (w.Trim true value)) 16 = none) ∧
      (∀ addr, w.ToULong (w.Trim false (w.Trim true value)) 16 = some addr →
        OnAddrBoxChange w (some value) s =
          (UpdateLists (CCodeView.Center (addr % 2 ^ 32) s), some wxColour.wxNullColour) ∧
        newCalls s (OnAddrBoxChange w (some value) s).1 =
          [Call.Center (addr % 2 ^ 32), Call.UpdateLists]) := by
  have hjump : ∀ (address : Nat) (t : Debugger σ), address < 2 ^ 32 →
      JumpToAddress address t = (true, UpdateLists (CCodeView.Center address t)) := by
    intro address t ht
    have : address ≤ 0xFFFFFFFF := by omega
    simp [JumpToAddress, this]
  have hmod : ∀ addr : Nat, addr % 2 ^ 32 < 2 ^ 32 := fun addr => Nat.mod_lt _ (by decide)
  refine ⟨?_, ?_, ?_, ?_⟩
  · intro address t ht
    rw [hjump address t ht]
  · cases hp : w.ToULong (w.Trim false (w.Trim true value)) 16 with
    | none => simp [OnAddrBoxChange, hp]
    | some addr =>
      simp only [OnAddrBoxChange, hp, hjump _ s (hmod addr)]
      simp
  · cases hp : w.ToULong (w.Trim false (w.Trim true value)) 16 with
    | none => simp [OnAddrBoxChange, hp]
    | some addr =>
      simp only [OnAddrBoxChange, hp, hjump _ s (hmod addr)]
      simp
  · intro addr hp
    have heq : OnAddrBoxChange w (some value) s =
        (UpdateLists (CCodeView.Center (addr % 2 ^ 32) s), some wxColour.wxNullColour) := by
      simp only [OnAddrBoxChange, hp, hjump _ s (hmod addr)]
      simp
    refine ⟨heq, ?_⟩
    rw [heq]
    simp [newCalls, UpdateLists, CCodeView.Center]

theorem OnAddrBoxChange_success_witness :
    toyWxString.ToULong (toyWxString.Trim false (toyWxString.Trim true (some 0x100001000))) 16
        = some 0x100001000 ∧
      (0x1000 : Nat) < 2 ^ 32 ∧
      (JumpToAddress 0x1000 (toyState 0x2000 0)).1 = true ∧
      (OnAddrBoxChange toyWxString (some (some 0x100001000)) (toyState 0x2000 0)).2
        = some wxColour.wxNullColour ∧
      newCalls (toyState 0x2000 0)
        (OnAddrBoxChange toyWxString (some (some 0x100001000)) (toyState 0x2000 0)).1
        = [Call.Center 0x1000, Call.UpdateLists] := by
  have h := OnAddrBoxChange_success toyWxString (some 0x100001000) (toyState 0x2000 0)
  refine ⟨rfl, by decide, h.1 0x1000 (toyState 0x2000 0) (by decide), ?_, ?_⟩
  · rw [((h.2.2.2 0x100001000 rfl).1)]
  · exact (h.2.2.2 0x100001000 rfl).2

/-! ## The identifiers -/

/-- C15: by the values of the `enum` of `Globals.h`, the identifiers in the
range `IDM_STEP .. IDM_GOTOPC`, over which the constructor binds `OnCodeStep`,
are exactly the seven case labels of its `switch`: these are the only named
enumerators in the range, an identifier is in the range exactly when it is one
of the labels, `ID_TOOLBAR_DEBUG` and `IDM_ADDRBOX` lie outside, and so does
every drive and perspective identifier.  An identifier that is not one of the
labels runs no case of the `switch`. -/
theorem OnCodeStep_bound_are_cases :
    enumerators.filter OnCodeStep_bound = OnCodeStep_cases ∧
      (∀ id, OnCodeStep_bound id = true ↔ id ∈ OnCodeStep_cases) ∧
      OnCodeStep_bound ID_TOOLBAR_DEBUG = false ∧
      OnCodeStep_bound IDM_ADDRBOX = false ∧
      (∀ id, isDriveId id = true ∨ isPerspectiveId id = true → OnCodeStep_bound id = false) ∧
      (∀ (c : Core σ) (s : Debugger σ) (id : Nat), id ∉ OnCodeStep_cases →
        OnCodeStep c id s = UpdateGUI (UpdateButtonStates s)) := by
  have hd1 : IDM_DRIVE1 = 277 := rfl
  have hd24 : IDM_DRIVE24 = 300 := rfl
  have hp0 : IDM_PERSPECTIVES_0 = 432 := rfl
  have hp100 : IDM_PERSPECTIVES_100 = 532 := rfl
  have hfilter : enumerators.filter OnCodeStep_bound = OnCodeStep_cases := by
    set_option maxRecDepth 100000 in decide
  have hdebug : OnCodeStep_bound ID_TOOLBAR_DEBUG = false := by
    set_option maxRecDepth 100000 in decide
  have haddr : OnCodeStep_bound IDM_ADDRBOX = false := by
    set_option maxRecDepth 100000 in decide
  refine ⟨hfilter, ?_, hdebug, haddr, ?_, ?_⟩
  · intro id
    simp only [OnCodeStep_bound, OnCodeStep_cases, IDM_STEP_value, IDM_STEPOVER_value,
      IDM_STEPOUT_value, IDM_TOGGLE_BREAKPOINT_value, IDM_SKIP_value, IDM_SETPC_value,
      IDM_GOTOPC_value, decide_eq_true_eq, List.mem_cons, List.mem_singleton,
      List.not_mem_nil, or_false]
    omega
  · intro id h
    simp only [isDriveId, isPerspectiveId, OnCodeStep_bound, hd1, hd24, hp0, hp100,
      IDM_STEP_value, IDM_GOTOPC_value, decide_eq_true_eq, decide_eq_false_iff_not] at h ⊢
    omega
  · intro c s id hid
    simp only [OnCodeStep_cases, List.mem_cons, List.mem_singleton, List.not_mem_nil,
      or_false, not_or] at hid
    obtain ⟨h1, h2, h3, h4, h5, h6, h7⟩ := hid
    simp [OnCodeStep, h1, h2, h3, h4, h5, h6, h7]

theorem OnCodeStep_bound_are_cases_witness :
    IDM_ADDRBOX ∉ OnCodeStep_cases ∧ isDriveId IDM_DRIVE1 = true ∧
      OnCodeStep_bound IDM_DRIVE1 = false ∧
      OnCodeStep (toyCore toyMemory 3) IDM_ADDRBOX (toyState 0x1000 0) =
        UpdateGUI (UpdateButtonStates (toyState 0x1000 0)) := by
  have h := @OnCodeStep_bound_are_cases ToyRegs
  have hnot : IDM_ADDRBOX ∉ OnCodeStep_cases := by
    set_option maxRecDepth 100000 in decide
  have hdrive : isDriveId IDM_DRIVE1 = true := by
    set_option maxRecDepth 100000 in decide
  exact ⟨hnot, hdrive, h.2.2.2.2.1 IDM_DRIVE1 (Or.inl hdrive),
    h.2.2.2.2.2 (toyCore toyMemory 3) (toyState 0x1000 0) IDM_ADDRBOX hnot⟩

/-- C16: the named enumerators of the `enum` of `Globals.h` have pairwise
different values, and the only named enumerators in the drive range are its two
ends; but the explicitly valued `ID_TOOLBAR = 500` lies inside the perspective
range `IDM_PERSPECTIVES_0 .. IDM_PERSPECTIVES_100` = `432 .. 532`: it is the
identifier `IDM_PERSPECTIVES_0 + 68` of the 69th perspective. -/
theorem ID_TOOLBAR_in_perspective_range :
    enumerators.Nodup ∧
      enumerators.filter isDriveId = [ IDM_DRIVE1, IDM_DRIVE24 ] ∧
      enumerators.filter isPerspectiveId =
        [ IDM_PERSPECTIVES_0, IDM_PERSPECTIVES_100, ID_TOOLBAR ] ∧
      IDM_PERSPECTIVES_0 = 432 ∧ IDM_PERSPECTIVES_100 = 532 ∧ ID_TOOLBAR = 500 ∧
      ID_TOOLBAR = IDM_PERSPECTIVES_0 + 68 ∧
      isPerspectiveId ID_TOOLBAR = true := by
  refine ⟨?_, ?_, ?_, ?_, ?_, ?_, ?_, ?_⟩
  all_goals set_option maxRecDepth 100000 in decide

end CCodeWindow

end Dolphin
